import Mathlib

/-!
# Order lifecycle and inventory consistency engine — shallow embedding

This file embeds the order create / status-transition / delete handlers of the
ker-pesked repository and proves (or refutes) the frozen claims about them.

The repository exposes two parallel families of handlers:

* the *mobile* API (`src/app/api/mobile/orders/route.ts` POST,
  `src/app/api/mobile/orders/quick/route.ts` POST, and the
  `src/unnamed/part_008` order-detail route with PUT and DELETE), and
* the *desktop* API (`src/app/api/orders/[id]/route.ts` PUT and DELETE).

Numeric fields (`quantity`, `price`, `stock`, `total`) are JavaScript numbers
in the source; they are embedded as exact rationals `ℚ`.  The one claim that
is about the binary representation of those numbers (the order-total rounding
claim) is settled against a separate exact model of IEEE-754 binary64
arithmetic, defined later in this file.

Record ids (`cuid()` strings generated by the database) are embedded as
`String`, with freshly generated ids supplied by the caller as explicit
arguments.
-/

namespace KerPesked

/-- The order-status vocabulary.  This is exactly the `z.enum` of the order
routes: both the canonical values and the legacy French aliases are distinct
stored values (`"EN_COURS" | "LIVREE" | "ANNULEE" | "PENDING" | "READY" |
"DELIVERED" | "CANCELLED"`). -/
inductive OrderStatus where
  | EN_COURS | LIVREE | ANNULEE | PENDING | READY | DELIVERED | CANCELLED
deriving Repr, DecidableEq

/-- The cancellation test used by the handlers: the source always checks
`status === 'ANNULEE' || status === 'CANCELLED'` (and its negation). -/
def OrderStatus.isCancellation : OrderStatus → Bool
  | .ANNULEE => true
  | .CANCELLED => true
  | _ => false

/-- A `Product` row: id, name, price, stock, unit (fields the handlers read). -/
structure Product where
  id : String
  name : String
  price : ℚ
  stock : ℚ
  unit : String
deriving Repr, DecidableEq

/-- A `Customer` row (fields the handlers read; `phone` is nullable). -/
structure Customer where
  id : String
  name : String
  phone : Option String
deriving Repr, DecidableEq

/-- An `OrderItem` row.  It references its owning order and its product by id
and carries its own quantity and price snapshot. -/
structure OrderItem where
  orderId : String
  productId : String
  quantity : ℚ
  price : ℚ
deriving Repr, DecidableEq

/-- An `Order` row. -/
structure Order where
  id : String
  customerId : String
  status : OrderStatus
  total : ℚ
  notes : Option String
deriving Repr, DecidableEq

/-- The relational state the handlers act on: the four tables the order
handlers touch. -/
structure DB where
  products : List Product
  customers : List Customer
  orders : List Order
  orderItems : List OrderItem
deriving Repr, DecidableEq

/-- `prisma.product.findUnique({ where: { id } })`. -/
def findProduct (db : DB) (pid : String) : Option Product :=
  db.products.find? (fun p => p.id = pid)

/-- `prisma.customer.findUnique({ where: { id } })`. -/
def findCustomer (db : DB) (cid : String) : Option Customer :=
  db.customers.find? (fun c => c.id = cid)

/-- `prisma.order.findUnique({ where: { id } })`. -/
def findOrder (db : DB) (oid : String) : Option Order :=
  db.orders.find? (fun o => o.id = oid)

/-- The `orderItems` relation included with an order. -/
def itemsOf (db : DB) (oid : String) : List OrderItem :=
  db.orderItems.filter (fun it => it.orderId = oid)

/-- Stock of a product as read back from the state (0 when absent; the
handlers only ever read stock of products that exist). -/
def stockOf (db : DB) (pid : String) : ℚ :=
  ((findProduct db pid).map Product.stock).getD 0

/-- `tx.product.update({ data: { stock: { increment: δ } } })` — and, with a
negated argument, the corresponding `decrement`. -/
def updStock (db : DB) (pid : String) (δ : ℚ) : DB :=
  { db with
    products := db.products.map (fun p =>
      if p.id = pid then { p with stock := p.stock + δ } else p) }

/-- `Math.round(q * 100) / 100` read over exact rationals:
`Math.round x = ⌊x + 1/2⌋` (round half toward +∞).  This is the decimal
idealisation of the handlers' total/price rounding; the binary64 reading is
modelled separately below. -/
def round2 (q : ℚ) : ℚ :=
  (⌊q * 100 + 1/2⌋ : ℤ) / 100

/-- The typed content of the error responses the order handlers produce.
Each constructor records the data interpolated into the response message. -/
inductive ApiError where
  /-- zod rejection of the request body. -/
  | validation
  /-- `notFoundResponse("Client non trouvé")`. -/
  | customerNotFound
  /-- `` `Produit ${id} non trouvé` ``. -/
  | productNotFound (productId : String)
  /-- `` `Stock insuffisant pour ${name}. Disponible: ${stock}, demandé:
  ${quantity}` `` (HTTP 400). -/
  | insufficientStock (productName : String) (available requested : ℚ)
  /-- `notFoundResponse("Commande non trouvée")`. -/
  | orderNotFound
  /-- a caught exception surfaced as a generic 500. -/
  | serverError
deriving Repr, DecidableEq

/-- A request item of the mobile order POST body (`orderItemSchema`): the
client supplies the price. -/
structure ReqItem where
  productId : String
  quantity : ℚ
  price : ℚ
deriving Repr, DecidableEq

/-- The zod checks of `orderSchema` on the items list: at least one item,
non-empty product id, positive quantity, positive price. -/
def validItems (items : List ReqItem) : Bool :=
  !items.isEmpty &&
    items.all (fun it => it.productId ≠ "" && 0 < it.quantity && 0 < it.price)

/-- The product checks of the mobile order POST: for each item in order,
resolve the product (missing → not-found error) and compare
`product.stock < item.quantity` (→ insufficient-stock error).  The source
builds the list of checks with `Promise.all` and then returns the first
error in item order, which is what this function computes. -/
def checkItems (db : DB) : List ReqItem → Option ApiError
  | [] => none
  | it :: rest =>
    match findProduct db it.productId with
    | none => some (.productNotFound it.productId)
    | some p =>
      if p.stock < it.quantity then
        some (.insufficientStock p.name p.stock it.quantity)
      else
        checkItems db rest

/-- `total += item.quantity * item.price` over the items. -/
def itemsTotal (items : List ReqItem) : ℚ :=
  items.foldl (fun s it => s + it.quantity * it.price) 0

/-- The writes of the mobile order POST transaction: create the order row and
its item rows (item price stored as `Math.round(item.price * 100) / 100`),
then `stock: { decrement: item.quantity }` for each item in order. -/
def createOrderWrites (db : DB) (newOrderId : String) (customerId : String)
    (items : List ReqItem) (status : OrderStatus) (notes : Option String) :
    DB × Order :=
  let order : Order :=
    { id := newOrderId, customerId := customerId, status := status,
      total := round2 (itemsTotal items), notes := notes }
  let newItems := items.map (fun it =>
    { orderId := newOrderId, productId := it.productId,
      quantity := it.quantity, price := round2 it.price : OrderItem })
  let db1 := { db with
    orders := db.orders ++ [order],
    orderItems := db.orderItems ++ newItems }
  let db2 := items.foldl (fun d it => updStock d it.productId (-it.quantity)) db1
  (db2, order)

/-- `POST /api/mobile/orders` (`src/app/api/mobile/orders/route.ts`):
validate the body, check the customer, run the product/stock checks, then
atomically insert the order with its items and decrement each product's
stock.  `status` is the optional `status` body field (`validatedData.status
|| 'EN_COURS'`); `notes` is the optional `notes` field (`validatedData.notes
|| null`, so an empty string becomes null).  The state component is returned
unchanged on every error path (all error responses are produced before the
transaction). -/
def mobileOrdersPost (db : DB) (newOrderId : String) (customerId : String)
    (items : List ReqItem) (status? : Option OrderStatus)
    (notes? : Option String) : Except ApiError Order × DB :=
  if ¬ validItems items then (.error .validation, db)
  else
    match findCustomer db customerId with
    | none => (.error .customerNotFound, db)
    | some _ =>
      match checkItems db items with
      | some e => (.error e, db)
      | none =>
        let notes := notes?.bind (fun s => if s = "" then none else some s)
        let r := createOrderWrites db newOrderId customerId items
          (status?.getD .EN_COURS) notes
        (.ok r.2, r.1)

/-- A request item of the quick order POST body (`quickOrderItemSchema`): no
price field. -/
structure QuickItem where
  productId : String
  quantity : ℚ
deriving Repr, DecidableEq

/-- The zod checks of `quickOrderSchema` on the items list. -/
def validQuickItems (items : List QuickItem) : Bool :=
  !items.isEmpty && items.all (fun it => it.productId ≠ "" && 0 < it.quantity)

/-- The enrichment loop of the quick order POST: resolve each product
(missing → 404), check `product.stock < item.quantity` (→ 400), and take the
price from the product's current price. -/
def enrichQuickItems (db : DB) : List QuickItem → Except ApiError (List ReqItem)
  | [] => .ok []
  | it :: rest =>
    match findProduct db it.productId with
    | none => .error (.productNotFound it.productId)
    | some p =>
      if p.stock < it.quantity then
        .error (.insufficientStock p.name p.stock it.quantity)
      else
        (enrichQuickItems db rest).map (fun enriched =>
          { productId := it.productId, quantity := it.quantity,
            price := p.price : ReqItem } :: enriched)

/-- `POST /api/mobile/orders/quick`
(`src/app/api/mobile/orders/quick/route.ts`): like the standard POST but the
item prices are taken from the products' current prices, the status is always
`EN_COURS`, and there is no notes field. -/
def quickOrdersPost (db : DB) (newOrderId : String) (customerId : String)
    (items : List QuickItem) : Except ApiError Order × DB :=
  if ¬ validQuickItems items then (.error .validation, db)
  else
    match findCustomer db customerId with
    | none => (.error .customerNotFound, db)
    | some _ =>
      match enrichQuickItems db items with
      | .error e => (.error e, db)
      | .ok enriched =>
        let r := createOrderWrites db newOrderId customerId enriched .EN_COURS none
        (.ok r.2, r.1)

/-- The fold restoring an order's item quantities onto product stock:
`stock: { increment: item.quantity }` for each item of the order. -/
def restoreStock (db : DB) (its : List OrderItem) : DB :=
  its.foldl (fun d it => updStock d it.productId it.quantity) db

/-- `PUT /api/mobile/orders/[id]` (`src/unnamed/part_008`): look the order up
(404 when missing), compute
`shouldRestoreStock = (new ∈ {ANNULEE, CANCELLED}) && (current ∉ {ANNULEE,
CANCELLED})`, then in one transaction increment the item quantities back onto
stock when that flag is set and write the new status (and notes when the body
carries them).  Returns the updated order together with the `stockRestored`
flag of the response. -/
def mobileOrderPut (db : DB) (oid : String) (newStatus : OrderStatus)
    (notes? : Option String) : Except ApiError (Order × Bool) × DB :=
  match findOrder db oid with
  | none => (.error .orderNotFound, db)
  | some existing =>
    let its := itemsOf db oid
    let shouldRestoreStock :=
      newStatus.isCancellation && !existing.status.isCancellation
    let db1 := if shouldRestoreStock then restoreStock db its else db
    let updated : Order :=
      { existing with
        status := newStatus,
        notes := match notes? with | some n => some n | none => existing.notes }
    let db2 := { db1 with
      orders := db1.orders.map (fun o => if o.id = oid then updated else o) }
    (.ok (updated, shouldRestoreStock), db2)

/-- `DELETE /api/mobile/orders/[id]` (`src/unnamed/part_008`): look the order
up with its items (404 when missing), then in one transaction increment the
item quantities back onto stock unless the order is already `ANNULEE` or
`CANCELLED`, and delete the order (the schema cascades the delete to its
`OrderItem` rows). -/
def mobileOrderDelete (db : DB) (oid : String) : Except ApiError Unit × DB :=
  match findOrder db oid with
  | none => (.error .orderNotFound, db)
  | some order =>
    let its := itemsOf db oid
    let db1 := if !order.status.isCancellation then restoreStock db its else db
    let db2 := { db1 with
      orders := db1.orders.filter (fun o => o.id ≠ oid),
      orderItems := db1.orderItems.filter (fun it => it.orderId ≠ oid) }
    (.ok (), db2)

/-- A call of the Notification Dispatcher,
`envoyerSmsCommande(telephone, message, orderId)` (`src/lib/sms.ts`).  The
dispatch is fire-and-forget in the source (`.catch(...)`, not awaited), so
its outcome is not part of the handler's state or response; the model records
the emitted calls. -/
structure Notification where
  telephone : String
  message : String
  orderId : String
deriving Repr, DecidableEq

/-- Rendering of a JS number into a message string.  In the source the
quantity is interpolated with JavaScript's default number formatting; this
renderer is the corresponding abstraction over exact rationals (integers
print as plain integers). -/
def qToString (q : ℚ) : String :=
  if q.den = 1 then toString q.num
  else toString q.num ++ "/" ++ toString q.den

/-- `genererMessageCommandePrete(customerName, orderItems)`
(`src/lib/sms.ts`): `` `Bonjour ${customerName}, votre commande est prête :
${productsText}. Merci !` `` where `productsText` joins
`` `${item.productName} (${item.quantity} ${item.unit})` `` with `", "`. -/
def genererMessageCommandePrete (customerName : String)
    (orderItems : List (String × ℚ × String)) : String :=
  let productsText := String.intercalate ", "
    (orderItems.map (fun it =>
      it.1 ++ " (" ++ qToString it.2.1 ++ " " ++ it.2.2 ++ ")"))
  "Bonjour " ++ customerName ++ ", votre commande est prête : " ++
    productsText ++ ". Merci !"

/-- Name of the product an item references, as the included `product.name` of
the order query (in the database this join cannot dangle). -/
def productName (db : DB) (pid : String) : String :=
  ((findProduct db pid).map Product.name).getD ""

/-- Unit of the product an item references, as the included `product.unit`. -/
def productUnit (db : DB) (pid : String) : String :=
  ((findProduct db pid).map Product.unit).getD ""

/-- The `{productName, quantity, unit}` list the desktop PUT builds from
`order.orderItems` for the SMS message. -/
def orderItemsForMessage (db : DB) (oid : String) : List (String × ℚ × String) :=
  (itemsOf db oid).map (fun it =>
    (productName db it.productId, it.quantity, productUnit db it.productId))

/-- `PUT /api/orders/[id]` (`src/app/api/orders/[id]/route.ts`, the version
with SMS dispatch): look the order up (404 when missing), update its status
and notes — and nothing else: this handler has no stock restoration — then,
when the new status is `READY`, the previous status was not `READY` and the
customer has a (non-null, non-empty) phone, fire
`envoyerSmsCommande(phone, genererMessageCommandePrete(name, items), id)`
without awaiting it.  The third component lists the dispatcher calls made. -/
def ordersIdPut (db : DB) (oid : String) (newStatus : OrderStatus)
    (notes? : Option String) :
    Except ApiError Order × DB × List Notification :=
  match findOrder db oid with
  | none => (.error .orderNotFound, db, [])
  | some existing =>
    let updated : Order :=
      { existing with
        status := newStatus,
        notes := match notes? with | some n => some n | none => existing.notes }
    let db1 := { db with
      orders := db.orders.map (fun o => if o.id = oid then updated else o) }
    let notifications :=
      if newStatus = .READY ∧ existing.status ≠ .READY then
        match (findCustomer db existing.customerId).bind Customer.phone with
        | some ph =>
          if ph = "" then []
          else
            [{ telephone := ph,
               message := genererMessageCommandePrete
                 (((findCustomer db existing.customerId).map
                    Customer.name).getD "")
                 (orderItemsForMessage db oid),
               orderId := oid }]
        | none => []
      else []
    (.ok updated, db1, notifications)

/-- `DELETE /api/orders/[id]` (`src/app/api/orders/[id]/route.ts`): look the
order up with its items; when it exists **and its status is exactly
`PENDING`**, increment the item quantities back onto stock; then delete the
order (cascading to its items).  When the order does not exist the
`prisma.order.delete` call throws and the handler answers 500. -/
def ordersIdDelete (db : DB) (oid : String) : Except ApiError Unit × DB :=
  match findOrder db oid with
  | none => (.error .serverError, db)
  | some order =>
    let its := itemsOf db oid
    let db1 := if order.status = .PENDING then restoreStock db its else db
    let db2 := { db1 with
      orders := db1.orders.filter (fun o => o.id ≠ oid),
      orderItems := db1.orderItems.filter (fun it => it.orderId ≠ oid) }
    (.ok (), db2)

/-- One engine operation of the mobile API, for sequencing claims. -/
inductive EngineOp where
  | create (newOrderId customerId : String) (items : List ReqItem)
      (status? : Option OrderStatus) (notes? : Option String)
  | transition (oid : String) (newStatus : OrderStatus)
      (notes? : Option String)
  | delete (oid : String)
deriving Repr, DecidableEq

/-- The state transformation of one engine operation. -/
def applyOp (db : DB) : EngineOp → DB
  | .create newOrderId customerId items status? notes? =>
    (mobileOrdersPost db newOrderId customerId items status? notes?).2
  | .transition oid newStatus notes? =>
    (mobileOrderPut db oid newStatus notes?).2
  | .delete oid => (mobileOrderDelete db oid).2

/-- The state after a sequence of engine operations. -/
def runOps (db : DB) (ops : List EngineOp) : DB :=
  ops.foldl applyOp db

/-! ## Characterisation of the stock-adjustment folds -/

/-- A sequence of stock adjustments, abstracting the per-item
increment/decrement loops of the handlers. -/
def applyAdjs (db : DB) (l : List (String × ℚ)) : DB :=
  l.foldl (fun d pq => updStock d pq.1 pq.2) db

/-- Net adjustment a list of `(productId, delta)` pairs applies to one
product. -/
def adjTotal (pid : String) (l : List (String × ℚ)) : ℚ :=
  ((l.filter (fun pq => pq.1 = pid)).map Prod.snd).sum

/-- Total quantity a request's items ask of one product. -/
def qtyFor (pid : String) (items : List ReqItem) : ℚ :=
  ((items.filter (fun it => it.productId = pid)).map ReqItem.quantity).sum

/-- Total quantity of an item list referencing one product. -/
def itemQty (pid : String) (its : List OrderItem) : ℚ :=
  ((its.filter (fun it => it.productId = pid)).map OrderItem.quantity).sum

theorem applyAdjs_products (l : List (String × ℚ)) (db : DB) :
    (applyAdjs db l).products =
      db.products.map (fun p => { p with stock := p.stock + adjTotal p.id l }) := by
  induction l generalizing db with
  | nil =>
    have h : ∀ p : Product,
        ({ p with stock := p.stock + adjTotal p.id [] } : Product) = p := by
      intro p; cases p; simp [adjTotal]
    calc (applyAdjs db []).products = db.products.map id := by
          simp [applyAdjs]
      _ = _ := List.map_congr_left (fun p _ => (h p).symm)
  | cons x rest ih =>
    have step : applyAdjs db (x :: rest) = applyAdjs (updStock db x.1 x.2) rest := by
      simp [applyAdjs]
    rw [step, ih, updStock, List.map_map]
    apply List.map_congr_left
    intro p _
    obtain ⟨pid, pname, pprice, pstock, punit⟩ := p
    by_cases h : pid = x.1
    · subst h
      simp only [Function.comp]
      simp [adjTotal]
      ring
    · simp only [Function.comp]
      simp [adjTotal, h, Ne.symm h]

theorem applyAdjs_customers (l : List (String × ℚ)) (db : DB) :
    (applyAdjs db l).customers = db.customers := by
  induction l generalizing db with
  | nil => rfl
  | cons x rest ih => simpa [applyAdjs, updStock] using ih (updStock db x.1 x.2)

theorem applyAdjs_orders (l : List (String × ℚ)) (db : DB) :
    (applyAdjs db l).orders = db.orders := by
  induction l generalizing db with
  | nil => rfl
  | cons x rest ih => simpa [applyAdjs, updStock] using ih (updStock db x.1 x.2)

theorem applyAdjs_orderItems (l : List (String × ℚ)) (db : DB) :
    (applyAdjs db l).orderItems = db.orderItems := by
  induction l generalizing db with
  | nil => rfl
  | cons x rest ih => simpa [applyAdjs, updStock] using ih (updStock db x.1 x.2)

/-- The decrement loop of the create transaction is an adjustment sequence. -/
theorem createFold_eq (items : List ReqItem) (db : DB) :
    items.foldl (fun d it => updStock d it.productId (-it.quantity)) db =
      applyAdjs db (items.map (fun it => (it.productId, -it.quantity))) := by
  simp [applyAdjs, List.foldl_map]

/-- The restore loop of the cancel/delete transactions is an adjustment
sequence. -/
theorem restoreStock_eq (its : List OrderItem) (db : DB) :
    restoreStock db its =
      applyAdjs db (its.map (fun it => (it.productId, it.quantity))) := by
  simp [restoreStock, applyAdjs, List.foldl_map]

theorem adjTotal_create (pid : String) (items : List ReqItem) :
    adjTotal pid (items.map (fun it => (it.productId, -it.quantity))) =
      -qtyFor pid items := by
  induction items with
  | nil => simp [adjTotal, qtyFor]
  | cons it rest ih =>
    by_cases h : it.productId = pid <;>
      simp [adjTotal, qtyFor, h] at ih ⊢
    · rw [ih]; ring
    · exact ih

theorem adjTotal_restore (pid : String) (its : List OrderItem) :
    adjTotal pid (its.map (fun it => (it.productId, it.quantity))) =
      itemQty pid its := by
  induction its with
  | nil => simp [adjTotal, itemQty]
  | cons it rest ih =>
    by_cases h : it.productId = pid <;>
      simp [adjTotal, itemQty, h] at ih ⊢ <;> simp [ih]

/-! ## Lookup lemmas -/

theorem find_eq_of_mem_of_nodup {l : List Product}
    (hnd : (l.map Product.id).Nodup) {p : Product} (hp : p ∈ l) :
    l.find? (fun q => q.id = p.id) = some p := by
  induction l with
  | nil => cases hp
  | cons a rest ih =>
    rcases List.mem_cons.mp hp with h | h
    · subst h
      simp [List.find?]
    · have hane : a.id ≠ p.id := by
        intro hid
        have : p.id ∈ rest.map Product.id := List.mem_map_of_mem Product.id h
        have : a.id ∈ rest.map Product.id := hid ▸ this
        exact (List.nodup_cons.mp hnd).1 this
      have hrest := ih (List.nodup_cons.mp hnd).2 h
      simp [List.find?, hane, hrest]

/-- With distinct product ids, looking a member product up by id finds it. -/
theorem findProduct_of_mem (db : DB)
    (hnd : (db.products.map Product.id).Nodup) {p : Product}
    (hp : p ∈ db.products) : findProduct db p.id = some p :=
  find_eq_of_mem_of_nodup hnd hp

theorem findProduct_applyAdjs (db : DB) (l : List (String × ℚ)) (pid : String) :
    findProduct (applyAdjs db l) pid =
      (findProduct db pid).map
        (fun p => { p with stock := p.stock + adjTotal p.id l }) := by
  unfold findProduct
  rw [applyAdjs_products, List.find?_map]
  rfl

/-! ## State characterisation of the handlers -/

theorem createOrderWrites_snd (db : DB) (oid cid : String) (items : List ReqItem)
    (st : OrderStatus) (n : Option String) :
    (createOrderWrites db oid cid items st n).2 =
      { id := oid, customerId := cid, status := st,
        total := round2 (itemsTotal items), notes := n } := rfl

theorem createOrderWrites_products (db : DB) (oid cid : String)
    (items : List ReqItem) (st : OrderStatus) (n : Option String) :
    (createOrderWrites db oid cid items st n).1.products =
      db.products.map (fun p => { p with stock := p.stock - qtyFor p.id items }) := by
  unfold createOrderWrites
  simp only
  rw [createFold_eq, applyAdjs_products]
  apply List.map_congr_left
  intro p _
  rw [adjTotal_create, ← sub_eq_add_neg]

theorem createOrderWrites_orders (db : DB) (oid cid : String)
    (items : List ReqItem) (st : OrderStatus) (n : Option String) :
    (createOrderWrites db oid cid items st n).1.orders =
      db.orders ++ [(createOrderWrites db oid cid items st n).2] := by
  unfold createOrderWrites
  simp only
  rw [createFold_eq, applyAdjs_orders]

theorem createOrderWrites_orderItems (db : DB) (oid cid : String)
    (items : List ReqItem) (st : OrderStatus) (n : Option String) :
    (createOrderWrites db oid cid items st n).1.orderItems =
      db.orderItems ++ items.map (fun it =>
        { orderId := oid, productId := it.productId, quantity := it.quantity,
          price := round2 it.price : OrderItem }) := by
  unfold createOrderWrites
  simp only
  rw [createFold_eq, applyAdjs_orderItems]

theorem createOrderWrites_customers (db : DB) (oid cid : String)
    (items : List ReqItem) (st : OrderStatus) (n : Option String) :
    (createOrderWrites db oid cid items st n).1.customers = db.customers := by
  unfold createOrderWrites
  simp only
  rw [createFold_eq, applyAdjs_customers]

/-- On the success path the mobile order POST performs exactly the create
transaction's writes. -/
theorem mobileOrdersPost_ok_eq (db : DB) (oid cid : String)
    (items : List ReqItem) (st? : Option OrderStatus) (n? : Option String)
    (h1 : validItems items = true) (h2 : (findCustomer db cid).isSome)
    (h3 : checkItems db items = none) :
    mobileOrdersPost db oid cid items st? n? =
      (.ok (createOrderWrites db oid cid items (st?.getD .EN_COURS)
          (n?.bind (fun s => if s = "" then none else some s))).2,
       (createOrderWrites db oid cid items (st?.getD .EN_COURS)
          (n?.bind (fun s => if s = "" then none else some s))).1) := by
  obtain ⟨c, hc⟩ := Option.isSome_iff_exists.mp h2
  simp [mobileOrdersPost, h1, hc, h3]

/-- Every error response of the mobile order POST is produced before the
transaction: the state is unchanged. -/
theorem mobileOrdersPost_error_state (db : DB) (oid cid : String)
    (items : List ReqItem) (st? : Option OrderStatus) (n? : Option String)
    (e : ApiError)
    (h : (mobileOrdersPost db oid cid items st? n?).1 = .error e) :
    (mobileOrdersPost db oid cid items st? n?).2 = db := by
  by_cases h1 : validItems items
  · cases hc : findCustomer db cid with
    | none => simp [mobileOrdersPost, h1, hc]
    | some c =>
      cases hk : checkItems db items with
      | none => simp [mobileOrdersPost, h1, hc, hk] at h
      | some e' => simp [mobileOrdersPost, h1, hc, hk]
  · simp [mobileOrdersPost, h1]

/-- The validation phase of the mobile order POST: the body checks, the
customer lookup and the product/stock checks, all of which run before the
transaction opens. -/
def createValidates (db : DB) (cid : String) (items : List ReqItem) : Bool :=
  validItems items && (findCustomer db cid).isSome && (checkItems db items).isNone

/-- The POST succeeds exactly when its validation phase passes. -/
theorem mobileOrdersPost_ok_iff (db : DB) (oid cid : String)
    (items : List ReqItem) (st? : Option OrderStatus) (n? : Option String) :
    (∃ ord, (mobileOrdersPost db oid cid items st? n?).1 = .ok ord) ↔
      createValidates db cid items = true := by
  constructor
  · rintro ⟨ord, hord⟩
    by_cases h1 : validItems items
    · cases hc : findCustomer db cid with
      | none => simp [mobileOrdersPost, h1, hc] at hord
      | some c =>
        cases hk : checkItems db items with
        | none => simp [createValidates, h1, hc, hk]
        | some e' => simp [mobileOrdersPost, h1, hc, hk] at hord
    · simp [mobileOrdersPost, h1] at hord
  · intro hv
    obtain ⟨⟨h1, h2⟩, h3⟩ := by
      simpa [createValidates, Bool.and_eq_true, Option.isNone_iff_eq_none]
        using hv
    rw [mobileOrdersPost_ok_eq db oid cid items st? n? h1 h2 h3]
    exact ⟨_, rfl⟩

/-- The order value and restoration flag the mobile PUT responds with. -/
theorem mobileOrderPut_fst (db : DB) (oid : String) (ns : OrderStatus)
    (n? : Option String) (ex : Order) (hex : findOrder db oid = some ex) :
    (mobileOrderPut db oid ns n?).1 =
      .ok ({ ex with
              status := ns,
              notes := (match n? with | some n => some n | none => ex.notes) },
           ns.isCancellation && !ex.status.isCancellation) := by
  simp [mobileOrderPut, hex]

/-- Product rows after the mobile PUT: stock is incremented by the order's
item quantities exactly when the restoration flag fires; nothing else about
any product changes. -/
theorem mobileOrderPut_products (db : DB) (oid : String) (ns : OrderStatus)
    (n? : Option String) (ex : Order) (hex : findOrder db oid = some ex) :
    (mobileOrderPut db oid ns n?).2.products =
      if ns.isCancellation && !ex.status.isCancellation then
        db.products.map
          (fun p => { p with stock := p.stock + itemQty p.id (itemsOf db oid) })
      else db.products := by
  unfold mobileOrderPut
  rw [hex]
  simp only
  by_cases hf : ns.isCancellation && !ex.status.isCancellation
  · rw [if_pos hf, if_pos hf, restoreStock_eq, applyAdjs_products]
    apply List.map_congr_left
    intro p _
    rw [adjTotal_restore]
  · rw [if_neg hf, if_neg hf]

theorem mobileOrderPut_orders (db : DB) (oid : String) (ns : OrderStatus)
    (n? : Option String) (ex : Order) (hex : findOrder db oid = some ex) :
    (mobileOrderPut db oid ns n?).2.orders =
      db.orders.map (fun o =>
        if o.id = oid then
          { ex with
            status := ns,
            notes := (match n? with | some n => some n | none => ex.notes) }
        else o) := by
  unfold mobileOrderPut
  rw [hex]
  simp only
  by_cases hf : ns.isCancellation && !ex.status.isCancellation
  · rw [if_pos hf, restoreStock_eq, applyAdjs_orders]
  · rw [if_neg hf]

theorem mobileOrderPut_orderItems (db : DB) (oid : String) (ns : OrderStatus)
    (n? : Option String) :
    (mobileOrderPut db oid ns n?).2.orderItems = db.orderItems := by
  unfold mobileOrderPut
  cases hex : findOrder db oid with
  | none => rfl
  | some ex =>
    simp only
    by_cases hf : ns.isCancellation && !ex.status.isCancellation
    · rw [if_pos hf, restoreStock_eq, applyAdjs_orderItems]
    · rw [if_neg hf]

theorem mobileOrderPut_customers (db : DB) (oid : String) (ns : OrderStatus)
    (n? : Option String) :
    (mobileOrderPut db oid ns n?).2.customers = db.customers := by
  unfold mobileOrderPut
  cases hex : findOrder db oid with
  | none => rfl
  | some ex =>
    simp only
    by_cases hf : ns.isCancellation && !ex.status.isCancellation
    · rw [if_pos hf, restoreStock_eq, applyAdjs_customers]
    · rw [if_neg hf]

/-- When the order is missing the mobile PUT changes nothing. -/
theorem mobileOrderPut_notFound (db : DB) (oid : String) (ns : OrderStatus)
    (n? : Option String) (hex : findOrder db oid = none) :
    mobileOrderPut db oid ns n? = (.error .orderNotFound, db) := by
  simp [mobileOrderPut, hex]

/-- Product rows after the mobile DELETE: stock is incremented by the order's
item quantities exactly when the order was not already cancelled. -/
theorem mobileOrderDelete_products (db : DB) (oid : String) (ord : Order)
    (hex : findOrder db oid = some ord) :
    (mobileOrderDelete db oid).2.products =
      if !ord.status.isCancellation then
        db.products.map
          (fun p => { p with stock := p.stock + itemQty p.id (itemsOf db oid) })
      else db.products := by
  unfold mobileOrderDelete
  rw [hex]
  simp only
  by_cases hf : !ord.status.isCancellation
  · rw [if_pos hf, if_pos hf, restoreStock_eq, applyAdjs_products]
    apply List.map_congr_left
    intro p _
    rw [adjTotal_restore]
  · rw [if_neg hf, if_neg hf]

theorem mobileOrderDelete_orders (db : DB) (oid : String) (ord : Order)
    (hex : findOrder db oid = some ord) :
    (mobileOrderDelete db oid).2.orders =
      db.orders.filter (fun o => o.id ≠ oid) := by
  unfold mobileOrderDelete
  rw [hex]
  simp only
  by_cases hf : !ord.status.isCancellation
  · rw [if_pos hf, restoreStock_eq, applyAdjs_orders]
  · rw [if_neg hf]

theorem mobileOrderDelete_orderItems (db : DB) (oid : String) (ord : Order)
    (hex : findOrder db oid = some ord) :
    (mobileOrderDelete db oid).2.orderItems =
      db.orderItems.filter (fun it => it.orderId ≠ oid) := by
  unfold mobileOrderDelete
  rw [hex]
  simp only
  by_cases hf : !ord.status.isCancellation
  · rw [if_pos hf, restoreStock_eq, applyAdjs_orderItems]
  · rw [if_neg hf]

theorem mobileOrderDelete_customers (db : DB) (oid : String) :
    (mobileOrderDelete db oid).2.customers = db.customers := by
  unfold mobileOrderDelete
  cases hex : findOrder db oid with
  | none => rfl
  | some ord =>
    simp only
    by_cases hf : !ord.status.isCancellation
    · rw [if_pos hf, restoreStock_eq, applyAdjs_customers]
    · rw [if_neg hf]

theorem mobileOrderDelete_fst (db : DB) (oid : String) (ord : Order)
    (hex : findOrder db oid = some ord) :
    (mobileOrderDelete db oid).1 = .ok () := by
  simp [mobileOrderDelete, hex]

theorem mobileOrderDelete_notFound (db : DB) (oid : String)
    (hex : findOrder db oid = none) :
    mobileOrderDelete db oid = (.error .orderNotFound, db) := by
  simp [mobileOrderDelete, hex]

/-- The desktop PUT never touches product rows. -/
theorem ordersIdPut_products (db : DB) (oid : String) (ns : OrderStatus)
    (n? : Option String) :
    (ordersIdPut db oid ns n?).2.1.products = db.products := by
  unfold ordersIdPut
  cases hex : findOrder db oid <;> rfl

/-! ## Validation lemmas -/

/-- Passing the product checks means every item's product exists with enough
stock. -/
theorem checkItems_none (db : DB) (items : List ReqItem)
    (h : checkItems db items = none) :
    ∀ it ∈ items, ∃ p, findProduct db it.productId = some p ∧
      it.quantity ≤ p.stock := by
  induction items with
  | nil => intro it hit; cases hit
  | cons it rest ih =>
    intro jt hjt
    rcases List.mem_cons.mp hjt with hj | hj
    · subst hj
      cases hp : findProduct db jt.productId with
      | none => simp [checkItems, hp] at h
      | some p =>
        refine ⟨p, rfl, ?_⟩
        by_cases hs : p.stock < jt.quantity
        · simp [checkItems, hp, hs] at h
        · exact le_of_not_lt hs
    · cases hp : findProduct db it.productId with
      | none => simp [checkItems, hp] at h
      | some p =>
        by_cases hs : p.stock < it.quantity
        · simp [checkItems, hp, hs] at h
        · exact ih (by simpa [checkItems, hp, hs] using h) jt hj

/-- When every item's product exists and some item asks for more than its
product's stock, the product checks end with the insufficient-stock error of
such an item. -/
theorem checkItems_insufficient (db : DB) (items : List ReqItem)
    (hall : ∀ it ∈ items, (findProduct db it.productId).isSome)
    (hbad : ∃ it ∈ items, ∃ p, findProduct db it.productId = some p ∧
      p.stock < it.quantity) :
    ∃ it ∈ items, ∃ p, findProduct db it.productId = some p ∧
      p.stock < it.quantity ∧
      checkItems db items = some (.insufficientStock p.name p.stock it.quantity) := by
  induction items with
  | nil => obtain ⟨it, hit, _⟩ := hbad; cases hit
  | cons it rest ih =>
    obtain ⟨p, hp⟩ := Option.isSome_iff_exists.mp (hall it (List.mem_cons_self it rest))
    by_cases hs : p.stock < it.quantity
    · exact ⟨it, List.mem_cons_self it rest, p, hp, hs, by simp [checkItems, hp, hs]⟩
    · have hrest : ∃ jt ∈ rest, ∃ q, findProduct db jt.productId = some q ∧
          q.stock < jt.quantity := by
        obtain ⟨jt, hjt, q, hq, hqs⟩ := hbad
        rcases List.mem_cons.mp hjt with hj | hj
        · subst hj
          rw [hp] at hq
          cases hq
          exact absurd hqs hs
        · exact ⟨jt, hj, q, hq, hqs⟩
      obtain ⟨jt, hjt, q, hq, hqs, hck⟩ :=
        ih (fun kt hkt => hall kt (List.mem_cons_of_mem it hkt)) hrest
      exact ⟨jt, List.mem_cons_of_mem it hjt, q, hq, hqs,
        by simpa [checkItems, hp, hs] using hck⟩

/-- Price of the product an item references (the handlers only read prices of
products that exist). -/
def priceOf (db : DB) (pid : String) : ℚ :=
  ((findProduct db pid).map Product.price).getD 0

/-- Passing the quick-order enrichment yields exactly the request quantities
priced at the products' current prices. -/
theorem enrichQuickItems_ok (db : DB) (qitems : List QuickItem)
    (enriched : List ReqItem)
    (h : enrichQuickItems db qitems = .ok enriched) :
    enriched = qitems.map (fun qit =>
      { productId := qit.productId, quantity := qit.quantity,
        price := priceOf db qit.productId : ReqItem }) := by
  induction qitems generalizing enriched with
  | nil => simpa [enrichQuickItems] using h.symm
  | cons qit rest ih =>
    cases hp : findProduct db qit.productId with
    | none => simp [enrichQuickItems, hp] at h
    | some p =>
      by_cases hs : p.stock < qit.quantity
      · simp [enrichQuickItems, hp, hs] at h
      · rcases hrest : enrichQuickItems db rest with e | tail
        · simp [enrichQuickItems, hp, hs, hrest, Except.map] at h
        · have htail := ih tail hrest
          have h' : ({ productId := qit.productId,
                       quantity := qit.quantity,
                       price := p.price : ReqItem } :: tail) = enriched := by
            simpa [enrichQuickItems, hp, hs, hrest, Except.map] using h
          rw [← h', htail]
          simp [priceOf, hp]

/-! ## The stock invariant -/

/-- Every product's stock is non-negative. -/
def stockNonneg (db : DB) : Prop := ∀ p ∈ db.products, 0 ≤ p.stock

/-- Every order item's quantity is non-negative (all items are created by the
order POSTs, whose validation enforces positive quantities). -/
def wfItems (db : DB) : Prop := ∀ it ∈ db.orderItems, 0 ≤ it.quantity

/-- Product ids are pairwise distinct (the primary-key constraint of the
`Product` table). -/
def wfIds (db : DB) : Prop := (db.products.map Product.id).Nodup

/-- The side condition under which a create call cannot drive stock negative:
its items reference pairwise distinct products.  (The handlers validate each
item against the product's stock independently, so a request listing the same
product twice can overdraw it — see the counterexample to the invariant
claim.) -/
def opSafe : EngineOp → Bool
  | .create _ _ items _ _ => (items.map ReqItem.productId).Nodup
  | .transition _ _ _ => true
  | .delete _ => true

theorem nodup_map_update {l : List Product} {f : Product → Product}
    (hf : ∀ p, (f p).id = p.id) (h : (l.map Product.id).Nodup) :
    ((l.map f).map Product.id).Nodup := by
  have heq : (l.map f).map Product.id = l.map Product.id := by
    rw [List.map_map]
    exact List.map_congr_left (fun p _ => hf p)
  rwa [heq]

theorem itemQty_nonneg (db : DB) (oid pid : String) (hi : wfItems db) :
    0 ≤ itemQty pid (itemsOf db oid) := by
  apply List.sum_nonneg
  intro x hx
  obtain ⟨it, hit, rfl⟩ := List.mem_map.mp hx
  exact hi it (List.mem_of_mem_filter (List.mem_of_mem_filter hit))

/-- With distinct item product ids and passing stock checks, no product is
asked for more than its stock. -/
theorem qtyFor_le_stock (db : DB) (items : List ReqItem) (p : Product)
    (hp : p ∈ db.products) (hnd : wfIds db)
    (hchk : checkItems db items = none)
    (hnodup : (items.map ReqItem.productId).Nodup)
    (hstock : 0 ≤ p.stock) :
    qtyFor p.id items ≤ p.stock := by
  rcases hfil : items.filter (fun it => it.productId = p.id) with _ | ⟨it, rest2⟩
  · simpa [qtyFor, hfil] using hstock
  · have hmemfil : it ∈ items.filter (fun it => it.productId = p.id) := by
      rw [hfil]; exact List.mem_cons_self it rest2
    have hmem : it ∈ items := List.mem_of_mem_filter hmemfil
    have hpid : it.productId = p.id := by
      simpa using List.of_mem_filter hmemfil
    have hnd2 : ((items.filter (fun it => it.productId = p.id)).map
        ReqItem.productId).Nodup :=
      hnodup.sublist ((List.filter_sublist items).map ReqItem.productId)
    rw [hfil] at hnd2
    cases rest2 with
    | nil =>
      have hq : qtyFor p.id items = it.quantity := by simp [qtyFor, hfil]
      obtain ⟨q, hfind, hle⟩ := checkItems_none db items hchk it hmem
      rw [hpid, findProduct_of_mem db hnd hp] at hfind
      cases hfind
      rw [hq]
      exact hle
    | cons jt rest3 =>
      have hmemfil2 : jt ∈ items.filter (fun it => it.productId = p.id) := by
        rw [hfil]
        exact List.mem_cons_of_mem it (List.mem_cons_self jt rest3)
      have hpid2 : jt.productId = p.id := by
        simpa using List.of_mem_filter hmemfil2
      simp [hpid, hpid2] at hnd2

/-- One mobile engine operation preserves the primary-key, item-quantity and
stock invariants, provided create calls reference distinct products. -/
theorem applyOp_preserves (db : DB) (op : EngineOp)
    (hnd : wfIds db) (hs : stockNonneg db) (hi : wfItems db)
    (hsafe : opSafe op = true) :
    wfIds (applyOp db op) ∧ stockNonneg (applyOp db op) ∧
      wfItems (applyOp db op) := by
  cases op with
  | create oid cid items st? n? =>
    simp only [applyOp]
    rcases hres : (mobileOrdersPost db oid cid items st? n?).1 with e | ord
    · rw [mobileOrdersPost_error_state db oid cid items st? n? e hres]
      exact ⟨hnd, hs, hi⟩
    · have hv : createValidates db cid items :=
        (mobileOrdersPost_ok_iff db oid cid items st? n?).mp ⟨ord, hres⟩
      obtain ⟨⟨h1, h2⟩, h3⟩ : (validItems items ∧ (findCustomer db cid).isSome)
          ∧ checkItems db items = none := by
        simpa [createValidates, Bool.and_eq_true, Option.isNone_iff_eq_none]
          using hv
      rw [mobileOrdersPost_ok_eq db oid cid items st? n? h1 h2 h3]
      simp only
      refine ⟨?_, ?_, ?_⟩
      · unfold wfIds
        rw [createOrderWrites_products]
        exact nodup_map_update (fun p => rfl) hnd
      · intro p' hp'
        rw [createOrderWrites_products] at hp'
        obtain ⟨p, hp, rfl⟩ := List.mem_map.mp hp'
        have := qtyFor_le_stock db items p hp hnd h3
          (by simpa [opSafe] using hsafe) (hs p hp)
        simp only
        linarith
      · intro it hit
        rw [createOrderWrites_orderItems] at hit
        rcases List.mem_append.mp hit with h | h
        · exact hi it h
        · obtain ⟨rit, hrit, rfl⟩ := List.mem_map.mp h
          have h1' := h1
          simp only [validItems, Bool.and_eq_true, List.all_eq_true] at h1'
          have hq := h1'.2 rit hrit
          simp only [Bool.and_eq_true, decide_eq_true_eq] at hq
          simpa using le_of_lt hq.1.2
  | transition oid ns n? =>
    simp only [applyOp]
    cases hex : findOrder db oid with
    | none => rw [mobileOrderPut_notFound db oid ns n? hex]; exact ⟨hnd, hs, hi⟩
    | some ex =>
      refine ⟨?_, ?_, ?_⟩
      · unfold wfIds
        rw [mobileOrderPut_products db oid ns n? ex hex]
        by_cases hf : ns.isCancellation && !ex.status.isCancellation
        · rw [if_pos hf]; exact nodup_map_update (fun p => rfl) hnd
        · rw [if_neg hf]; exact hnd
      · intro p' hp'
        rw [mobileOrderPut_products db oid ns n? ex hex] at hp'
        by_cases hf : ns.isCancellation && !ex.status.isCancellation
        · rw [if_pos hf] at hp'
          obtain ⟨p, hp, rfl⟩ := List.mem_map.mp hp'
          have := itemQty_nonneg db oid p.id hi
          simp only
          linarith [hs p hp]
        · rw [if_neg hf] at hp'
          exact hs p' hp'
      · intro it hit
        rw [mobileOrderPut_orderItems] at hit
        exact hi it hit
  | delete oid =>
    simp only [applyOp]
    cases hex : findOrder db oid with
    | none =>
      rw [mobileOrderDelete_notFound db oid hex]
      exact ⟨hnd, hs, hi⟩
    | some ord =>
      refine ⟨?_, ?_, ?_⟩
      · unfold wfIds
        rw [mobileOrderDelete_products db oid ord hex]
        by_cases hf : !ord.status.isCancellation
        · rw [if_pos hf]; exact nodup_map_update (fun p => rfl) hnd
        · rw [if_neg hf]; exact hnd
      · intro p' hp'
        rw [mobileOrderDelete_products db oid ord hex] at hp'
        by_cases hf : !ord.status.isCancellation
        · rw [if_pos hf] at hp'
          obtain ⟨p, hp, rfl⟩ := List.mem_map.mp hp'
          have := itemQty_nonneg db oid p.id hi
          simp only
          linarith [hs p hp]
        · rw [if_neg hf] at hp'
          exact hs p' hp'
      · intro it hit
        rw [mobileOrderDelete_orderItems db oid ord hex] at hit
        exact hi it (List.mem_of_mem_filter hit)

/-- A sequence of mobile engine operations preserves the invariants. -/
theorem runOps_preserves (ops : List EngineOp) (db : DB)
    (hnd : wfIds db) (hs : stockNonneg db) (hi : wfItems db)
    (hsafe : ∀ op ∈ ops, opSafe op = true) :
    wfIds (runOps db ops) ∧ stockNonneg (runOps db ops) ∧
      wfItems (runOps db ops) := by
  induction ops generalizing db with
  | nil => exact ⟨hnd, hs, hi⟩
  | cons op rest ih =>
    have h1 := applyOp_preserves db op hnd hs hi
      (hsafe op (List.mem_cons_self op rest))
    have step : runOps db (op :: rest) = runOps (applyOp db op) rest := rfl
    rw [step]
    exact ih (applyOp db op) h1.1 h1.2.1 h1.2.2
      (fun o ho => hsafe o (List.mem_cons_of_mem op ho))

/-- Decidable equality on `Except` results, for evaluating the handlers on
concrete inputs. -/
def exceptDecEq {ε α : Type} [DecidableEq ε] [DecidableEq α] :
    (x y : Except ε α) → Decidable (x = y)
  | .ok a, .ok b =>
    if h : a = b then .isTrue (by rw [h]) else .isFalse (by simp [h])
  | .error e, .error f =>
    if h : e = f then .isTrue (by rw [h]) else .isFalse (by simp [h])
  | .ok _, .error _ => .isFalse (by simp)
  | .error _, .ok _ => .isFalse (by simp)

instance {ε α : Type} [DecidableEq ε] [DecidableEq α] :
    DecidableEq (Except ε α) := exceptDecEq

instance (db : DB) : Decidable (stockNonneg db) := by
  unfold stockNonneg; infer_instance

instance (db : DB) : Decidable (wfItems db) := by
  unfold wfItems; infer_instance

instance (db : DB) : Decidable (wfIds db) := by
  unfold wfIds; infer_instance

/-! ## Sample states used by the concrete theorems -/

/-- A customer with a phone number. -/
def customerC : Customer :=
  { id := "C", name := "Alice", phone := some "0612345678" }

/-- A fresh catalog: one product with stock 5, no orders. -/
def db0 : DB :=
  { products := [{ id := "A", name := "Saumon", price := 10, stock := 5,
                   unit := "kg" }],
    customers := [customerC], orders := [], orderItems := [] }

/-- A state holding one `PENDING` order of 2 kg of product `A` (stock already
decremented to 0 by its creation). -/
def dbPending : DB :=
  { products := [{ id := "A", name := "Saumon", price := 10, stock := 0,
                   unit := "kg" }],
    customers := [customerC],
    orders := [{ id := "o1", customerId := "C", status := .PENDING,
                 total := 20, notes := none }],
    orderItems := [{ orderId := "o1", productId := "A", quantity := 2,
                     price := 10 }] }

/-- The same state with the order already `DELIVERED`. -/
def dbDelivered : DB :=
  { products := [{ id := "A", name := "Saumon", price := 10, stock := 0,
                   unit := "kg" }],
    customers := [customerC],
    orders := [{ id := "o1", customerId := "C", status := .DELIVERED,
                 total := 20, notes := none }],
    orderItems := [{ orderId := "o1", productId := "A", quantity := 2,
                     price := 10 }] }

/-- The same state with the order in the default creation status `EN_COURS`. -/
def dbEnCours : DB :=
  { products := [{ id := "A", name := "Saumon", price := 10, stock := 0,
                   unit := "kg" }],
    customers := [customerC],
    orders := [{ id := "o1", customerId := "C", status := .EN_COURS,
                 total := 20, notes := none }],
    orderItems := [{ orderId := "o1", productId := "A", quantity := 2,
                     price := 10 }] }

/-! ## C1 — the stock invariant -/

/-- **C1, counterexample.**  The create handler validates every item against
the product row it read independently, and the transaction then decrements
once per item, so a request listing the same product twice passes validation
against the same stock and overdraws it: from stock 5, a createOrder of
3 + 3 kg of the same product succeeds and leaves stock −1. -/
theorem C1_counterexample :
    stockNonneg db0 ∧
    (mobileOrdersPost db0 "o1" "C"
      [⟨"A", 3, 10⟩, ⟨"A", 3, 10⟩] none none).1 =
      .ok { id := "o1", customerId := "C", status := .EN_COURS, total := 60,
            notes := none } ∧
    stockOf (runOps db0
      [.create "o1" "C" [⟨"A", 3, 10⟩, ⟨"A", 3, 10⟩] none none]) "A" = -1 ∧
    ¬ stockNonneg (runOps db0
      [.create "o1" "C" [⟨"A", 3, 10⟩, ⟨"A", 3, 10⟩] none none]) := by
  norm_num [db0, customerC, stockNonneg, stockOf, runOps, applyOp,
    mobileOrdersPost, validItems, findCustomer, checkItems, findProduct,
    createOrderWrites, itemsTotal, round2, updStock, List.foldl, List.all,
    List.find?]
  decide

/-- **C1 (amended).**  For every sequence of mobile createOrder,
transitionStatus and deleteOrder operations starting from a state with
distinct product ids, non-negative stocks and non-negative item quantities,
in which additionally every createOrder call references pairwise distinct
products, every product's stock is ≥ 0 before and after each operation
(i.e. after every prefix of the sequence). -/
theorem C1_stock_invariant (db : DB) (ops : List EngineOp)
    (hnd : wfIds db) (hs : stockNonneg db) (hi : wfItems db)
    (hsafe : ∀ op ∈ ops, opSafe op = true) :
    ∀ pre suf : List EngineOp, ops = pre ++ suf →
      stockNonneg (runOps db pre) := by
  intro pre suf hps
  subst hps
  exact (runOps_preserves pre db hnd hs hi
    (fun op hop => hsafe op (List.mem_append.mpr (Or.inl hop)))).2.1

/-- Witness for C1: a create followed by a cancel, checked after the first
operation. -/
theorem C1_stock_invariant_witness :
    stockNonneg (runOps db0 [.create "o1" "C" [⟨"A", 3, 10⟩] none none]) :=
  C1_stock_invariant db0
    [.create "o1" "C" [⟨"A", 3, 10⟩] none none,
     .transition "o1" .CANCELLED none]
    (by decide) (by decide) (by decide) (by decide)
    [.create "o1" "C" [⟨"A", 3, 10⟩] none none]
    [.transition "o1" .CANCELLED none] rfl

/-! ## C7 — transitions that must not touch stock -/

/-- **C7, counterexample.**  The mobile PUT restores stock whenever the new
status is a cancellation value and the current one is not — including from
the terminal state `DELIVERED`: cancelling a delivered order increments the
stock, where the claim says a transition out of `DELIVERED` leaves every
product's stock unchanged. -/
theorem C7_counterexample :
    stockOf dbDelivered "A" = 0 ∧
    (mobileOrderPut dbDelivered "o1" .CANCELLED none).1 =
      .ok ({ id := "o1", customerId := "C", status := .CANCELLED, total := 20,
             notes := none }, true) ∧
    stockOf (mobileOrderPut dbDelivered "o1" .CANCELLED none).2 "A" = 2 := by
  norm_num [dbDelivered, customerC, stockOf, mobileOrderPut, findOrder,
    findProduct, itemsOf, restoreStock, updStock, OrderStatus.isCancellation,
    List.foldl, List.filter, List.find?]

/-- **C7 (amended).**  A transition to the order's current status, a
transition out of a cancellation status, or a transition to a
non-cancellation status leaves every product row unchanged.  (A
`DELIVERED → CANCELLED` transition, by contrast, does restore stock — see
the counterexample.) -/
theorem C7_no_stock_change (db : DB) (oid : String) (ns : OrderStatus)
    (n? : Option String) (ex : Order) (hex : findOrder db oid = some ex)
    (hcase : ns = ex.status ∨ ex.status.isCancellation = true ∨
      ns.isCancellation = false) :
    (mobileOrderPut db oid ns n?).2.products = db.products := by
  rw [mobileOrderPut_products db oid ns n? ex hex]
  rcases hcase with h | h | h
  · subst h; simp
  · simp [h]
  · simp [h]

/-- Witness for C7: a `DELIVERED → DELIVERED` transition leaves the product
rows unchanged. -/
theorem C7_no_stock_change_witness :
    (mobileOrderPut dbDelivered "o1" .DELIVERED none).2.products =
      dbDelivered.products :=
  C7_no_stock_change dbDelivered "o1" .DELIVERED none
    { id := "o1", customerId := "C", status := .DELIVERED, total := 20,
      notes := none }
    (by decide) (Or.inl (by decide))

/-! ## C2 — stock restoration on cancellation -/

/-- After the mobile PUT the order is found with its new status and notes. -/
theorem findOrder_after_put (db : DB) (oid : String) (ns : OrderStatus)
    (n? : Option String) (ex : Order) (hex : findOrder db oid = some ex) :
    findOrder (mobileOrderPut db oid ns n?).2 oid =
      some { ex with
             status := ns,
             notes := (match n? with | some n => some n | none => ex.notes) } := by
  have hexid : ex.id = oid := by
    have h := List.find?_some (p := fun o : Order => o.id = oid) hex
    simpa using h
  unfold findOrder at hex ⊢
  rw [mobileOrderPut_orders db oid ns n? ex hex, List.find?_map]
  have hpred : ((fun o : Order => decide (o.id = oid)) ∘
      (fun o : Order => if o.id = oid then
        { ex with
          status := ns,
          notes := (match n? with | some n => some n | none => ex.notes) }
      else o)) = (fun o : Order => decide (o.id = oid)) := by
    funext o
    by_cases h : o.id = oid <;> simp [h, hexid]
  rw [hpred, hex]
  simp [hexid]

/-- **C2, counterexample.**  The desktop status-update handler
(`src/app/api/orders/[id]/route.ts` PUT) writes the new status but contains
no stock restoration at all: cancelling a `PENDING` order whose single item
holds 2 kg leaves the product's stock at 0 instead of incrementing it to 2. -/
theorem C2_counterexample :
    (ordersIdPut dbPending "o1" .CANCELLED none).1 =
      .ok { id := "o1", customerId := "C", status := .CANCELLED, total := 20,
            notes := none } ∧
    itemQty "A" (itemsOf dbPending "o1") = 2 ∧
    stockOf dbPending "A" = 0 ∧
    stockOf (ordersIdPut dbPending "o1" .CANCELLED none).2.1 "A" = 0 := by
  norm_num [dbPending, customerC, stockOf, ordersIdPut, findOrder,
    findProduct, findCustomer, itemsOf, itemQty, List.filter, List.find?]

/-- **C2 (amended).**  The mobile transitionStatus increments each of the
order's item quantities back onto the products' stock exactly when the new
status is a cancellation value and the current status is not; in particular a
second cancellation in a row changes no product row.  The desktop
status-update handler, by contrast, never restores stock (see the
counterexample). -/
theorem C2_restore_once (db : DB) (oid : String) (ns : OrderStatus)
    (n?1 n?2 : Option String) (ex : Order) (hex : findOrder db oid = some ex) :
    ((mobileOrderPut db oid ns n?1).2.products =
      if ns.isCancellation && !ex.status.isCancellation then
        db.products.map
          (fun p => { p with stock := p.stock + itemQty p.id (itemsOf db oid) })
      else db.products) ∧
    (mobileOrderPut (mobileOrderPut db oid .CANCELLED n?1).2 oid
        .CANCELLED n?2).2.products =
      (mobileOrderPut db oid .CANCELLED n?1).2.products := by
  constructor
  · exact mobileOrderPut_products db oid ns n?1 ex hex
  · have hfind := findOrder_after_put db oid .CANCELLED n?1 ex hex
    rw [mobileOrderPut_products _ oid .CANCELLED n?2 _ hfind]
    simp [OrderStatus.isCancellation]

/-- Witness for C2: cancelling the pending order restores 2 kg; cancelling
again changes nothing. -/
theorem C2_restore_once_witness :
    ((mobileOrderPut dbPending "o1" .CANCELLED none).2.products =
      if OrderStatus.CANCELLED.isCancellation &&
          !OrderStatus.PENDING.isCancellation then
        dbPending.products.map
          (fun p =>
            { p with stock := p.stock + itemQty p.id (itemsOf dbPending "o1") })
      else dbPending.products) ∧
    (mobileOrderPut (mobileOrderPut dbPending "o1" .CANCELLED none).2 "o1"
        .CANCELLED none).2.products =
      (mobileOrderPut dbPending "o1" .CANCELLED none).2.products :=
  C2_restore_once dbPending "o1" .CANCELLED none none
    { id := "o1", customerId := "C", status := .PENDING, total := 20,
      notes := none }
    (by decide)

/-! ## C3 — deletion -/

/-- Product rows after the desktop DELETE: stock is restored only when the
order's status is exactly `PENDING`. -/
theorem ordersIdDelete_products (db : DB) (oid : String) (ord : Order)
    (hex : findOrder db oid = some ord) :
    (ordersIdDelete db oid).2.products =
      if ord.status = .PENDING then
        db.products.map
          (fun p => { p with stock := p.stock + itemQty p.id (itemsOf db oid) })
      else db.products := by
  unfold ordersIdDelete
  rw [hex]
  simp only
  by_cases hf : ord.status = .PENDING
  · rw [if_pos hf, if_pos hf, restoreStock_eq, applyAdjs_products]
    apply List.map_congr_left
    intro p _
    rw [adjTotal_restore]
  · rw [if_neg hf, if_neg hf]

/-- **C3, counterexample.**  The desktop DELETE
(`src/app/api/orders/[id]/route.ts`) restores stock only when the order's
status is exactly `PENDING`.  Deleting an `EN_COURS` order — the status the
system itself assigns at creation, and not a cancellation value — deletes the
order but leaves the product's stock at 0 instead of restoring the 2 kg. -/
theorem C3_counterexample :
    OrderStatus.EN_COURS.isCancellation = false ∧
    (ordersIdDelete dbEnCours "o1").1 = .ok () ∧
    (ordersIdDelete dbEnCours "o1").2.orders = [] ∧
    itemQty "A" (itemsOf dbEnCours "o1") = 2 ∧
    stockOf (ordersIdDelete dbEnCours "o1").2 "A" = 0 := by
  norm_num [dbEnCours, customerC, stockOf, ordersIdDelete, findOrder,
    findProduct, itemsOf, itemQty, restoreStock, updStock,
    OrderStatus.isCancellation, List.filter, List.find?, List.foldl]

/-- **C3 (amended).**  The mobile deleteOrder restores each referenced
product's stock by the item quantities exactly when the order's current
status is not a cancellation value, in the same state transformation that
removes the order and (cascading) its items; customers, and products beyond
the stock field, are untouched.  The desktop deleteOrder restores stock only
when the status is exactly `PENDING` (so `EN_COURS`, `READY` and `LIVREE`
orders are deleted without restoration — see the counterexample). -/
theorem C3_delete_behaviour (db : DB) (oid : String) (ord : Order)
    (hex : findOrder db oid = some ord) :
    (mobileOrderDelete db oid).1 = .ok () ∧
    ((mobileOrderDelete db oid).2.products =
      if !ord.status.isCancellation then
        db.products.map
          (fun p => { p with stock := p.stock + itemQty p.id (itemsOf db oid) })
      else db.products) ∧
    (mobileOrderDelete db oid).2.orders =
      db.orders.filter (fun o => o.id ≠ oid) ∧
    (mobileOrderDelete db oid).2.orderItems =
      db.orderItems.filter (fun it => it.orderId ≠ oid) ∧
    (mobileOrderDelete db oid).2.customers = db.customers ∧
    ((ordersIdDelete db oid).2.products =
      if ord.status = .PENDING then
        db.products.map
          (fun p => { p with stock := p.stock + itemQty p.id (itemsOf db oid) })
      else db.products) :=
  ⟨mobileOrderDelete_fst db oid ord hex,
   mobileOrderDelete_products db oid ord hex,
   mobileOrderDelete_orders db oid ord hex,
   mobileOrderDelete_orderItems db oid ord hex,
   mobileOrderDelete_customers db oid,
   ordersIdDelete_products db oid ord hex⟩

/-- Witness for C3, applied to the pending-order state. -/
theorem C3_delete_behaviour_witness :
    (mobileOrderDelete dbPending "o1").1 = .ok () ∧
    ((mobileOrderDelete dbPending "o1").2.products =
      if !OrderStatus.PENDING.isCancellation then
        dbPending.products.map
          (fun p =>
            { p with stock := p.stock + itemQty p.id (itemsOf dbPending "o1") })
      else dbPending.products) ∧
    (mobileOrderDelete dbPending "o1").2.orders =
      dbPending.orders.filter (fun o => o.id ≠ "o1") ∧
    (mobileOrderDelete dbPending "o1").2.orderItems =
      dbPending.orderItems.filter (fun it => it.orderId ≠ "o1") ∧
    (mobileOrderDelete dbPending "o1").2.customers = dbPending.customers ∧
    ((ordersIdDelete dbPending "o1").2.products =
      if OrderStatus.PENDING = .PENDING then
        dbPending.products.map
          (fun p =>
            { p with stock := p.stock + itemQty p.id (itemsOf dbPending "o1") })
      else dbPending.products) :=
  C3_delete_behaviour dbPending "o1"
    { id := "o1", customerId := "C", status := .PENDING, total := 20,
      notes := none }
    (by decide)

/-! ## C4 — what a successful create inserts -/

/-- An order created through the quick route always carries the default
status `EN_COURS`. -/
theorem quickOrdersPost_status (db : DB) (oid cid : String)
    (qitems : List QuickItem) (ord : Order)
    (h : (quickOrdersPost db oid cid qitems).1 = .ok ord) :
    ord.status = .EN_COURS := by
  by_cases h1 : validQuickItems qitems
  · cases hc : findCustomer db cid with
    | none => simp [quickOrdersPost, h1, hc] at h
    | some c =>
      rcases he : enrichQuickItems db qitems with e | enr
      · simp [quickOrdersPost, h1, hc, he] at h
      · have hord : ord = (createOrderWrites db oid cid enr .EN_COURS none).2 := by
          have := h
          simp [quickOrdersPost, h1, hc, he] at this
          exact this.symm
        rw [hord, createOrderWrites_snd]
  · simp [quickOrdersPost, h1] at h

/-- What a successful default-status create does, together with the
atomicity of the error paths and the quick route's default status.  (This is
the conclusion of the amended C4, packaged so the concrete instance below is
a closed statement.) -/
def createBehaviour (db : DB) (oid cid : String) (items : List ReqItem)
    (n? : Option String) : Prop :=
  (mobileOrdersPost db oid cid items none n?).1 =
    .ok { id := oid, customerId := cid, status := .EN_COURS,
          total := round2 (itemsTotal items),
          notes := n?.bind (fun s => if s = "" then none else some s) } ∧
  (mobileOrdersPost db oid cid items none n?).2.orders =
    db.orders ++ [{ id := oid,
                    customerId := cid,
                    status := .EN_COURS,
                    total := round2 (itemsTotal items),
                    notes := n?.bind (fun s =>
                      if s = "" then none else some s) }] ∧
  (mobileOrdersPost db oid cid items none n?).2.orderItems =
    db.orderItems ++ items.map (fun it =>
      { orderId := oid, productId := it.productId, quantity := it.quantity,
        price := round2 it.price : OrderItem }) ∧
  (mobileOrdersPost db oid cid items none n?).2.products =
    db.products.map (fun p => { p with stock := p.stock - qtyFor p.id items }) ∧
  (mobileOrdersPost db oid cid items none n?).2.customers = db.customers ∧
  (∀ (st? : Option OrderStatus) (e : ApiError),
    (mobileOrdersPost db oid cid items st? n?).1 = .error e →
    (mobileOrdersPost db oid cid items st? n?).2 = db) ∧
  (∀ (qoid qcid : String) (qitems : List QuickItem) (ord : Order),
    (quickOrdersPost db qoid qcid qitems).1 = .ok ord →
    ord.status = .EN_COURS)

/-- **C4, counterexample.**  The mobile create accepts an optional `status`
body field (`validatedData.status || 'EN_COURS'`): a successful createOrder
may insert an order whose status is `DELIVERED` (or any other enum value),
not `PENDING`. -/
theorem C4_counterexample :
    (mobileOrdersPost db0 "o1" "C" [⟨"A", 2, 10⟩] (some .DELIVERED) none).1 =
      .ok { id := "o1", customerId := "C", status := .DELIVERED, total := 20,
            notes := none } ∧
    OrderStatus.DELIVERED ≠ .PENDING := by
  norm_num [db0, customerC, mobileOrdersPost, validItems, findCustomer,
    checkItems, findProduct, createOrderWrites, itemsTotal, round2, updStock,
    List.foldl, List.all, List.find?]
  decide

/-- **C4 (amended).**  A createOrder call with no explicit status inserts an
order with status `EN_COURS` (the stored legacy spelling of PENDING)
together with one OrderItem per requested item (price rounded to the cent),
decrements each referenced product's stock by the total quantity its items
request, and touches nothing else; every error path leaves the state
entirely unchanged (atomicity), and the quick create always inserts status
`EN_COURS`.  The caller may, however, override the status explicitly — see
the counterexample. -/
theorem C4_create_inserts (db : DB) (oid cid : String) (items : List ReqItem)
    (n? : Option String) (h1 : validItems items = true)
    (h2 : (findCustomer db cid).isSome) (h3 : checkItems db items = none) :
    createBehaviour db oid cid items n? := by
  unfold createBehaviour
  rw [mobileOrdersPost_ok_eq db oid cid items none n? h1 h2 h3]
  refine ⟨?_, ?_, ?_, ?_, ?_, ?_, ?_⟩
  · simp [createOrderWrites_snd]
  · simp [createOrderWrites_orders, createOrderWrites_snd]
  · rw [createOrderWrites_orderItems]
  · rw [createOrderWrites_products]
  · rw [createOrderWrites_customers]
  · intro st? e he
    exact mobileOrdersPost_error_state db oid cid items st? n? e he
  · intro qoid qcid qitems ord hq
    exact quickOrdersPost_status db qoid qcid qitems ord hq

/-- Witness for C4 on the fresh catalog. -/
theorem C4_create_inserts_witness :
    createBehaviour db0 "o1" "C" [⟨"A", 2, 10⟩] none :=
  C4_create_inserts db0 "o1" "C" [⟨"A", 2, 10⟩] none
    (by decide) (by decide) (by decide)

/-! ## C5 — insufficient stock -/

/-- A state with stock 1 of the product. -/
def dbLowStock : DB :=
  { products := [{ id := "A", name := "Saumon", price := 10, stock := 1,
                   unit := "kg" }],
    customers := [customerC], orders := [], orderItems := [] }

/-- The behaviour C5 asserts of the standard create: some item's product
covers less than the requested quantity, and the call returns the
insufficient-stock error naming that product, its stock and the request,
with the state unchanged. -/
def failsInsufficient (db : DB) (oid cid : String) (items : List ReqItem)
    (st? : Option OrderStatus) (n? : Option String) : Prop :=
  ∃ it ∈ items, ∃ p, findProduct db it.productId = some p ∧
    p.stock < it.quantity ∧
    mobileOrdersPost db oid cid items st? n? =
      (.error (.insufficientStock p.name p.stock it.quantity), db)

/-- The same behaviour for the quick route. -/
def quickFailsInsufficient (db : DB) (oid cid : String)
    (qitems : List QuickItem) : Prop :=
  ∃ it ∈ qitems, ∃ p, findProduct db it.productId = some p ∧
    p.stock < it.quantity ∧
    quickOrdersPost db oid cid qitems =
      (.error (.insufficientStock p.name p.stock it.quantity), db)

/-- When every product exists and some quick item overdraws its product, the
enrichment loop ends with that insufficient-stock error. -/
theorem enrichQuickItems_insufficient (db : DB) (qitems : List QuickItem)
    (hall : ∀ it ∈ qitems, (findProduct db it.productId).isSome)
    (hbad : ∃ it ∈ qitems, ∃ p, findProduct db it.productId = some p ∧
      p.stock < it.quantity) :
    ∃ it ∈ qitems, ∃ p, findProduct db it.productId = some p ∧
      p.stock < it.quantity ∧
      enrichQuickItems db qitems =
        .error (.insufficientStock p.name p.stock it.quantity) := by
  induction qitems with
  | nil => obtain ⟨it, hit, _⟩ := hbad; cases hit
  | cons it rest ih =>
    obtain ⟨p, hp⟩ := Option.isSome_iff_exists.mp
      (hall it (List.mem_cons_self it rest))
    by_cases hs : p.stock < it.quantity
    · exact ⟨it, List.mem_cons_self it rest, p, hp, hs,
        by simp [enrichQuickItems, hp, hs]⟩
    · have hrest : ∃ jt ∈ rest, ∃ q, findProduct db jt.productId = some q ∧
          q.stock < jt.quantity := by
        obtain ⟨jt, hjt, q, hq, hqs⟩ := hbad
        rcases List.mem_cons.mp hjt with hj | hj
        · subst hj
          rw [hp] at hq
          cases hq
          exact absurd hqs hs
        · exact ⟨jt, hj, q, hq, hqs⟩
      obtain ⟨jt, hjt, q, hq, hqs, hek⟩ :=
        ih (fun kt hkt => hall kt (List.mem_cons_of_mem it hkt)) hrest
      exact ⟨jt, List.mem_cons_of_mem it hjt, q, hq, hqs,
        by simp [enrichQuickItems, hp, hs, hek, Except.map]⟩

/-- **C5 (confirmed).**  If every requested item's product exists and some
item's quantity exceeds its product's current stock, both create routes fail
with an InsufficientStock error naming such a product, its available stock
and the requested quantity, create no order and leave the state (hence every
product's stock) unchanged. -/
theorem C5_insufficient_stock (db : DB) (oid cid qoid qcid : String)
    (items : List ReqItem) (qitems : List QuickItem)
    (st? : Option OrderStatus) (n? : Option String)
    (h1 : validItems items = true) (h2 : (findCustomer db cid).isSome)
    (hall : ∀ it ∈ items, (findProduct db it.productId).isSome)
    (hbad : ∃ it ∈ items, ∃ p, findProduct db it.productId = some p ∧
      p.stock < it.quantity)
    (hq1 : validQuickItems qitems = true)
    (hq2 : (findCustomer db qcid).isSome)
    (hallq : ∀ it ∈ qitems, (findProduct db it.productId).isSome)
    (hbadq : ∃ it ∈ qitems, ∃ p, findProduct db it.productId = some p ∧
      p.stock < it.quantity) :
    failsInsufficient db oid cid items st? n? ∧
      quickFailsInsufficient db qoid qcid qitems := by
  constructor
  · obtain ⟨it, hit, p, hp, hps, hck⟩ :=
      checkItems_insufficient db items hall hbad
    refine ⟨it, hit, p, hp, hps, ?_⟩
    obtain ⟨c, hc⟩ := Option.isSome_iff_exists.mp h2
    simp [mobileOrdersPost, h1, hc, hck]
  · obtain ⟨it, hit, p, hp, hps, hek⟩ :=
      enrichQuickItems_insufficient db qitems hallq hbadq
    refine ⟨it, hit, p, hp, hps, ?_⟩
    obtain ⟨c, hc⟩ := Option.isSome_iff_exists.mp hq2
    simp [quickOrdersPost, hq1, hc, hek]

/-- Witness for C5: the spec's own example — stock 1, requested quantity 2 —
on both routes. -/
theorem C5_insufficient_stock_witness :
    failsInsufficient dbLowStock "o1" "C" [⟨"A", 2, 10⟩] none none ∧
      quickFailsInsufficient dbLowStock "o2" "C" [⟨"A", 2⟩] :=
  C5_insufficient_stock dbLowStock "o1" "C" "o2" "C"
    [⟨"A", 2, 10⟩] [⟨"A", 2⟩] none none
    (by decide) (by decide) (by decide) (by decide)
    (by decide) (by decide) (by decide) (by decide)

/-! ## C6 — the price snapshot -/

/-- The quick route succeeds exactly like the standard one, with the
enriched items. -/
theorem quickOrdersPost_ok_eq (db : DB) (oid cid : String)
    (qitems : List QuickItem) (enr : List ReqItem)
    (h1 : validQuickItems qitems = true) (h2 : (findCustomer db cid).isSome)
    (he : enrichQuickItems db qitems = .ok enr) :
    quickOrdersPost db oid cid qitems =
      (.ok (createOrderWrites db oid cid enr .EN_COURS none).2,
       (createOrderWrites db oid cid enr .EN_COURS none).1) := by
  obtain ⟨c, hc⟩ := Option.isSome_iff_exists.mp h2
  simp [quickOrdersPost, h1, hc, he]

/-- **C6, counterexample.**  The standard mobile create stores the price
supplied in the request body on the OrderItem (rounded to the cent), not the
product's current price: with the product priced at 10, a request item priced
999 is stored at 999. -/
theorem C6_counterexample :
    priceOf db0 "A" = 10 ∧
    (mobileOrdersPost db0 "o1" "C" [⟨"A", 1, 999⟩] none none).2.orderItems =
      [{ orderId := "o1", productId := "A", quantity := 1, price := 999 }] ∧
    (999 : ℚ) ≠ 10 := by
  norm_num [db0, customerC, priceOf, mobileOrdersPost, validItems,
    findCustomer, checkItems, findProduct, createOrderWrites, itemsTotal,
    round2, updStock, List.foldl, List.all, List.find?]
  decide

/-- **C6 (amended).**  The quick create stores on each OrderItem the
referenced product's current price rounded to the cent, and computes the
total from those product prices; the standard mobile create instead stores
the request-supplied price rounded to the cent (see the counterexample). -/
theorem C6_price_snapshot (db : DB) (oid cid : String)
    (qitems : List QuickItem) (items : List ReqItem) (enr : List ReqItem)
    (st? : Option OrderStatus) (n? : Option String)
    (hq1 : validQuickItems qitems = true)
    (hq2 : (findCustomer db cid).isSome)
    (hqe : enrichQuickItems db qitems = .ok enr)
    (h1 : validItems items = true) (h3 : checkItems db items = none) :
    (quickOrdersPost db oid cid qitems).2.orderItems =
      db.orderItems ++ qitems.map (fun qit =>
        { orderId := oid, productId := qit.productId,
          quantity := qit.quantity,
          price := round2 (priceOf db qit.productId) : OrderItem }) ∧
    (quickOrdersPost db oid cid qitems).1 =
      .ok { id := oid, customerId := cid, status := .EN_COURS,
            total := round2 (itemsTotal (qitems.map (fun qit =>
              { productId := qit.productId, quantity := qit.quantity,
                price := priceOf db qit.productId }))),
            notes := none } ∧
    (mobileOrdersPost db oid cid items st? n?).2.orderItems =
      db.orderItems ++ items.map (fun it =>
        { orderId := oid, productId := it.productId, quantity := it.quantity,
          price := round2 it.price : OrderItem }) := by
  rw [quickOrdersPost_ok_eq db oid cid qitems enr hq1 hq2 hqe,
    mobileOrdersPost_ok_eq db oid cid items st? n? h1 hq2 h3]
  refine ⟨?_, ?_, ?_⟩
  · rw [createOrderWrites_orderItems,
      enrichQuickItems_ok db qitems enr hqe, List.map_map]
    rfl
  · rw [createOrderWrites_snd, enrichQuickItems_ok db qitems enr hqe]
  · rw [createOrderWrites_orderItems]

/-- Witness for C6 on the fresh catalog. -/
theorem C6_price_snapshot_witness :
    ((quickOrdersPost db0 "o2" "C" [⟨"A", 2⟩]).2.orderItems =
      db0.orderItems ++ [⟨"A", 2⟩].map (fun qit : QuickItem =>
        { orderId := "o2", productId := qit.productId,
          quantity := qit.quantity,
          price := round2 (priceOf db0 qit.productId) : OrderItem })) ∧
    ((quickOrdersPost db0 "o2" "C" [⟨"A", 2⟩]).1 =
      .ok { id := "o2", customerId := "C", status := .EN_COURS,
            total := round2 (itemsTotal ([⟨"A", 2⟩].map
              (fun qit : QuickItem =>
                { productId := qit.productId, quantity := qit.quantity,
                  price := priceOf db0 qit.productId }))),
            notes := none }) ∧
    ((mobileOrdersPost db0 "o2" "C" [⟨"A", 2, 10⟩] none none).2.orderItems =
      db0.orderItems ++ [⟨"A", 2, 10⟩].map (fun it : ReqItem =>
        { orderId := "o2", productId := it.productId,
          quantity := it.quantity,
          price := round2 it.price : OrderItem })) :=
  C6_price_snapshot db0 "o2" "C" [⟨"A", 2⟩] [⟨"A", 2, 10⟩]
    [{ productId := "A", quantity := 2, price := 10 }] none none
    (by decide) (by decide) (by decide) (by decide) (by decide)

/-! ## C9 — the READY notification -/

/-- The mobile PUT (`src/unnamed/part_008`) together with the dispatcher
calls it makes: the handler contains no `envoyerSmsCommande` call on any
path, so the emitted list is always empty. -/
def mobileOrderPutCalls (db : DB) (oid : String) (ns : OrderStatus)
    (n? : Option String) :
    (Except ApiError (Order × Bool) × DB) × List Notification :=
  (mobileOrderPut db oid ns n?, [])

/-- **C9, counterexample.**  A `PENDING → READY` transition through the
mobile status-update handler succeeds, the customer has a phone, and yet no
Notification Dispatcher call is made: only the desktop handler dispatches the
READY notification. -/
theorem C9_counterexample :
    (mobileOrderPutCalls dbPending "o1" .READY none).1.1 =
      .ok ({ id := "o1", customerId := "C", status := .READY, total := 20,
             notes := none }, false) ∧
    (findCustomer dbPending "C").bind Customer.phone = some "0612345678" ∧
    (mobileOrderPutCalls dbPending "o1" .READY none).2 = [] := by
  norm_num [dbPending, customerC, mobileOrderPutCalls, mobileOrderPut,
    findOrder, findCustomer, itemsOf, OrderStatus.isCancellation,
    List.filter, List.find?]

/-- **C9 (amended).**  The desktop status-update handler invokes the
Notification Dispatcher exactly once when the new status is `READY`, the
order's current status is not already `READY` and the customer has a
non-empty phone — with that phone, the order id and the generated message
listing every item's product name, quantity and unit; a `READY → READY`
transition makes no call; the product rows are untouched; and the mobile
status-update handler never invokes the dispatcher. -/
theorem C9_ready_notification (db : DB) (oid : String) (n? : Option String)
    (ex : Order) (c : Customer) (ph : String)
    (hex : findOrder db oid = some ex)
    (hc : findCustomer db ex.customerId = some c)
    (hph : c.phone = some ph) (hne : ph ≠ "") :
    ((ordersIdPut db oid .READY n?).2.2 =
      if ex.status ≠ .READY then
        [{ telephone := ph,
           message := genererMessageCommandePrete c.name
             (orderItemsForMessage db oid),
           orderId := oid }]
      else []) ∧
    (ordersIdPut db oid .READY n?).2.1.products = db.products ∧
    (mobileOrderPutCalls db oid .READY n?).2 = [] := by
  refine ⟨?_, ordersIdPut_products db oid .READY n?, rfl⟩
  by_cases hst : ex.status = .READY
  · simp [ordersIdPut, hex, hst]
  · simp [ordersIdPut, hex, hc, hph, hst, hne]

/-- Witness for C9: transitioning the pending order to `READY`. -/
theorem C9_ready_notification_witness :
    ((ordersIdPut dbPending "o1" .READY none).2.2 =
      if OrderStatus.PENDING ≠ .READY then
        [{ telephone := "0612345678",
           message := genererMessageCommandePrete "Alice"
             (orderItemsForMessage dbPending "o1"),
           orderId := "o1" }]
      else []) ∧
    (ordersIdPut dbPending "o1" .READY none).2.1.products =
      dbPending.products ∧
    (mobileOrderPutCalls dbPending "o1" .READY none).2 = [] :=
  C9_ready_notification dbPending "o1" none
    { id := "o1", customerId := "C", status := .PENDING, total := 20,
      notes := none }
    customerC "0612345678" (by decide) (by decide) (by decide) (by decide)

/-! ## C10 — concurrent creates -/

theorem findProduct_createOrderWrites (db : DB) (oid cid : String)
    (items : List ReqItem) (st : OrderStatus) (n : Option String)
    (pid : String) :
    findProduct (createOrderWrites db oid cid items st n).1 pid =
      (findProduct db pid).map
        (fun p => { p with stock := p.stock - qtyFor p.id items }) := by
  unfold findProduct
  rw [createOrderWrites_products, List.find?_map]
  rfl

theorem createValidates_decomp (db : DB) (cid : String)
    (items : List ReqItem) (h : createValidates db cid items = true) :
    validItems items = true ∧ (findCustomer db cid).isSome = true ∧
      checkItems db items = none := by
  simpa [createValidates, Bool.and_eq_true, Option.isNone_iff_eq_none,
    and_assoc] using h

/-- Interleaved execution of two concurrent create calls in which both
validation phases read the initial state before either transaction commits.
The handler runs all its validation queries (customer lookup, product
lookups, stock comparisons) before opening `prisma.$transaction`, and the
transaction's decrements are unconditional, so under the store's
read-committed isolation the schedule validate₁, validate₂, commit₁, commit₂
is realisable. -/
def interleavedCreates (db : DB)
    (oid1 cid1 : String) (items1 : List ReqItem)
    (oid2 cid2 : String) (items2 : List ReqItem) :
    Bool × Bool × DB :=
  let ok1 := createValidates db cid1 items1
  let ok2 := createValidates db cid2 items2
  let db1 := if ok1 then (createOrderWrites db oid1 cid1 items1
    .EN_COURS none).1 else db
  let db2 := if ok2 then (createOrderWrites db1 oid2 cid2 items2
    .EN_COURS none).1 else db1
  (ok1, ok2, db2)

/-- **C10, counterexample.**  With stock 5, two concurrent createOrder calls
each requesting 3 kg of the same product can both pass their (stale)
sufficiency checks and both commit their decrements: both succeed and the
final stock is −1, because the check runs outside the transaction and the
decrement is unconditional. -/
theorem C10_counterexample :
    stockOf db0 "A" = 5 ∧
    (interleavedCreates db0 "o1" "C" [⟨"A", 3, 10⟩]
      "o2" "C" [⟨"A", 3, 10⟩]).1 = true ∧
    (interleavedCreates db0 "o1" "C" [⟨"A", 3, 10⟩]
      "o2" "C" [⟨"A", 3, 10⟩]).2.1 = true ∧
    stockOf (interleavedCreates db0 "o1" "C" [⟨"A", 3, 10⟩]
      "o2" "C" [⟨"A", 3, 10⟩]).2.2 "A" = -1 := by
  norm_num [db0, customerC, stockOf, interleavedCreates, createValidates,
    validItems, findCustomer, checkItems, findProduct, createOrderWrites,
    itemsTotal, round2, updStock, List.foldl, List.all, List.find?]
  decide

/-- Serial execution of two single-item createOrder calls on the same
product: if both succeed, their combined quantity fits the initial stock,
and the final stock of that product is non-negative whenever the initial one
was.  (Conclusion of the amended C10.) -/
def serialCreatesSafe (db : DB) (p : Product) (oid1 cid1 oid2 cid2 : String)
    (q1 pr1 q2 pr2 : ℚ) (st1 st2 : Option OrderStatus)
    (n1 n2 : Option String) : Prop :=
  (((∃ o, (mobileOrdersPost db oid1 cid1 [⟨p.id, q1, pr1⟩] st1 n1).1 =
      .ok o) ∧
    (∃ o, (mobileOrdersPost
        (mobileOrdersPost db oid1 cid1 [⟨p.id, q1, pr1⟩] st1 n1).2
        oid2 cid2 [⟨p.id, q2, pr2⟩] st2 n2).1 = .ok o)) →
    q1 + q2 ≤ p.stock) ∧
  (0 ≤ p.stock →
    0 ≤ stockOf (mobileOrdersPost
      (mobileOrdersPost db oid1 cid1 [⟨p.id, q1, pr1⟩] st1 n1).2
      oid2 cid2 [⟨p.id, q2, pr2⟩] st2 n2).2 p.id)

/-- **C10 (amended).**  When the two calls execute serially — the second
call's validation reads the state the first call committed — they cannot
both succeed when their combined quantity exceeds the available stock, and
the final stock is never negative.  Under the interleaving in which both
validations read the initial state, however, both calls can succeed and
stock goes negative (see the counterexample): only the decrements themselves
are inside the transaction, not the sufficiency check. -/
theorem C10_serial_safe (db : DB) (p : Product) (hp : p ∈ db.products)
    (hnd : wfIds db) (oid1 cid1 oid2 cid2 : String) (q1 pr1 q2 pr2 : ℚ)
    (st1 st2 : Option OrderStatus) (n1 n2 : Option String) :
    serialCreatesSafe db p oid1 cid1 oid2 cid2 q1 pr1 q2 pr2 st1 st2 n1 n2 := by
  have hfind : findProduct db p.id = some p := findProduct_of_mem db hnd hp
  have hqty1 : qtyFor p.id [⟨p.id, q1, pr1⟩] = q1 := by simp [qtyFor]
  have hqty2 : qtyFor p.id [⟨p.id, q2, pr2⟩] = q2 := by simp [qtyFor]
  unfold serialCreatesSafe
  by_cases hok1 : createValidates db cid1 [⟨p.id, q1, pr1⟩] = true
  · obtain ⟨h11, h12, h13⟩ := createValidates_decomp db cid1 _ hok1
    have hle1 : q1 ≤ p.stock := by
      obtain ⟨pp, hpp, hle⟩ := checkItems_none db _ h13 ⟨p.id, q1, pr1⟩
        (List.mem_cons_self _ _)
      rw [show (⟨p.id, q1, pr1⟩ : ReqItem).productId = p.id from rfl,
        hfind] at hpp
      cases hpp
      exact hle
    have heq1 := mobileOrdersPost_ok_eq db oid1 cid1 [⟨p.id, q1, pr1⟩]
      st1 n1 h11 h12 h13
    have hstate1 : (mobileOrdersPost db oid1 cid1 [⟨p.id, q1, pr1⟩]
        st1 n1).2 = (createOrderWrites db oid1 cid1 [⟨p.id, q1, pr1⟩]
        (st1.getD .EN_COURS)
        (n1.bind (fun s => if s = "" then none else some s))).1 := by
      rw [heq1]
    have hfind1 : findProduct (mobileOrdersPost db oid1 cid1
        [⟨p.id, q1, pr1⟩] st1 n1).2 p.id =
        some { p with stock := p.stock - q1 } := by
      rw [hstate1, findProduct_createOrderWrites, hfind]
      simp [hqty1]
    by_cases hok2 : createValidates (mobileOrdersPost db oid1 cid1
        [⟨p.id, q1, pr1⟩] st1 n1).2 cid2 [⟨p.id, q2, pr2⟩] = true
    · obtain ⟨h21, h22, h23⟩ := createValidates_decomp _ cid2 _ hok2
      have hle2 : q2 ≤ p.stock - q1 := by
        obtain ⟨pp, hpp, hle⟩ := checkItems_none _ _ h23 ⟨p.id, q2, pr2⟩
          (List.mem_cons_self _ _)
        rw [show (⟨p.id, q2, pr2⟩ : ReqItem).productId = p.id from rfl,
          hfind1] at hpp
        cases hpp
        exact hle
      have heq2 := mobileOrdersPost_ok_eq _ oid2 cid2 [⟨p.id, q2, pr2⟩]
        st2 n2 h21 h22 h23
      constructor
      · intro _
        linarith
      · intro _
        rw [heq2]
        simp only [stockOf, findProduct_createOrderWrites, hfind1]
        simp [hqty2]
        linarith
    · have herr2 : ∀ e, (mobileOrdersPost (mobileOrdersPost db oid1 cid1
          [⟨p.id, q1, pr1⟩] st1 n1).2 oid2 cid2 [⟨p.id, q2, pr2⟩]
          st2 n2).1 = .error e →
          (mobileOrdersPost (mobileOrdersPost db oid1 cid1
          [⟨p.id, q1, pr1⟩] st1 n1).2 oid2 cid2 [⟨p.id, q2, pr2⟩]
          st2 n2).2 = (mobileOrdersPost db oid1 cid1
          [⟨p.id, q1, pr1⟩] st1 n1).2 :=
        fun e he => mobileOrdersPost_error_state _ oid2 cid2 _ st2 n2 e he
      rcases hres2 : (mobileOrdersPost (mobileOrdersPost db oid1 cid1
          [⟨p.id, q1, pr1⟩] st1 n1).2 oid2 cid2 [⟨p.id, q2, pr2⟩]
          st2 n2).1 with e | ord
      · constructor
        · rintro ⟨-, ⟨o, ho⟩⟩
          cases ho
        · intro _
          rw [herr2 e hres2]
          simp only [stockOf, hfind1]
          simp
          linarith
      · exact absurd ((mobileOrdersPost_ok_iff _ oid2 cid2 _ st2 n2).mp
          ⟨ord, hres2⟩) hok2
  · rcases hres1 : (mobileOrdersPost db oid1 cid1 [⟨p.id, q1, pr1⟩]
        st1 n1).1 with e | ord
    · have hstate1 : (mobileOrdersPost db oid1 cid1 [⟨p.id, q1, pr1⟩]
          st1 n1).2 = db :=
        mobileOrdersPost_error_state db oid1 cid1 _ st1 n1 e hres1
      constructor
      · rintro ⟨⟨o, ho⟩, -⟩
        cases ho
      · intro hps
        rw [hstate1]
        by_cases hok2 : createValidates db cid2 [⟨p.id, q2, pr2⟩] = true
        · obtain ⟨h21, h22, h23⟩ := createValidates_decomp db cid2 _ hok2
          have hle2 : q2 ≤ p.stock := by
            obtain ⟨pp, hpp, hle⟩ := checkItems_none db _ h23 ⟨p.id, q2, pr2⟩
              (List.mem_cons_self _ _)
            rw [show (⟨p.id, q2, pr2⟩ : ReqItem).productId = p.id from rfl,
              hfind] at hpp
            cases hpp
            exact hle
          have heq2 := mobileOrdersPost_ok_eq db oid2 cid2 [⟨p.id, q2, pr2⟩]
            st2 n2 h21 h22 h23
          rw [heq2]
          simp only [stockOf, findProduct_createOrderWrites, hfind]
          simp [hqty2]
          linarith
        · rcases hres2 : (mobileOrdersPost db oid2 cid2 [⟨p.id, q2, pr2⟩]
              st2 n2).1 with e2 | ord2
          · rw [mobileOrdersPost_error_state db oid2 cid2 _ st2 n2 e2 hres2]
            simp only [stockOf, hfind]
            simpa using hps
          · exact absurd ((mobileOrdersPost_ok_iff db oid2 cid2 _
              st2 n2).mp ⟨ord2, hres2⟩) hok2
    · exact absurd ((mobileOrdersPost_ok_iff db oid1 cid1 _ st1 n1).mp
        ⟨ord, hres1⟩) hok1

/-- Witness for C10: serial execution on the fresh catalog. -/
theorem C10_serial_safe_witness :
    serialCreatesSafe db0
      { id := "A", name := "Saumon", price := 10, stock := 5, unit := "kg" }
      "o1" "C" "o2" "C" 3 10 3 10 none none none none :=
  C10_serial_safe db0
    { id := "A", name := "Saumon", price := 10, stock := 5, unit := "kg" }
    (by decide) (by decide) "o1" "C" "o2" "C" 3 10 3 10 none none none none

/-! ## C8 — the total's rounding

In the source the request numbers, the running total and
`Math.round(total * 100) / 100` are IEEE-754 binary64 values (JavaScript
numbers).  The exact model of that arithmetic is below: a binary64 value is
the rational it denotes, and every operation rounds its exact rational
result to 53 significant bits, half to even.  (The exponent range is
unbounded: every value in this development is a normal double far from
overflow and underflow.) -/

/-- `⌊log₂ q⌋` for a positive rational, from the bit lengths of numerator
and denominator. -/
def qLog2 (q : ℚ) : ℤ :=
  let e0 : ℤ := (Nat.log 2 q.num.toNat : ℤ) - (Nat.log 2 q.den : ℤ)
  if q < 2 ^ e0 then e0 - 1 else e0

/-- Round a positive rational to the nearest binary64 value: scale into
`[2^52, 2^53)`, round the significand to an integer (half to even), scale
back. -/
def roundB64Pos (a : ℚ) : ℚ :=
  let e := qLog2 a - 52
  let m := a / 2 ^ e
  let n := ⌊m⌋
  let n' := if m < n + 1/2 then n
    else if (n : ℚ) + 1/2 < m then n + 1
    else if 2 ∣ n then n else n + 1
  (n' : ℚ) * 2 ^ e

/-- Round a rational to the nearest binary64 value. -/
def roundB64 (q : ℚ) : ℚ :=
  if q = 0 then 0
  else if 0 < q then roundB64Pos q
  else -roundB64Pos (-q)

/-- Binary64 addition: the exact sum, rounded. -/
def jsAdd (x y : ℚ) : ℚ := roundB64 (x + y)

/-- Binary64 multiplication. -/
def jsMul (x y : ℚ) : ℚ := roundB64 (x * y)

/-- Binary64 division. -/
def jsDiv (x y : ℚ) : ℚ := roundB64 (x / y)

/-- The binary64 value a decimal literal of the request body denotes. -/
def jsLit (q : ℚ) : ℚ := roundB64 q

/-- `Math.round`: the integral value nearest to the double's exact value,
half-ties toward +∞ (the result is exactly representable at the magnitudes
of this development). -/
def jsMathRound (x : ℚ) : ℚ := (⌊x + 1/2⌋ : ℤ)

/-- The total computation of the order POSTs, read at binary64 precision:
`let total = 0; for (item) total += item.quantity * item.price;
total = Math.round(total * 100) / 100` over the doubles denoted by the
request's decimal numbers. -/
def jsOrderTotal (items : List (ℚ × ℚ)) : ℚ :=
  jsDiv
    (jsMathRound
      (jsMul
        (items.foldl (fun s qp => jsAdd s (jsMul (jsLit qp.1) (jsLit qp.2))) 0)
        100))
    100

set_option maxRecDepth 10000 in
/-- **C8, counterexample.**  For one item of quantity 1 and price 1.005 the
binary64 evaluation of the handler's total is 1.00 — the double denoted by
`1.005` is 1.00499999999999989…, and `1.005 * 100` evaluates to
100.49999999999999, which `Math.round` takes to 100 — while half-up decimal
rounding of the exact sum gives 1.01.  The total is not computed with
decimal semantics. -/
theorem C8_counterexample :
    jsOrderTotal [(1, 1005/1000)] = 1 ∧
    round2 (itemsTotal [⟨"A", 1, 1005/1000⟩]) = 101/100 ∧
    (1 : ℚ) ≠ 101/100 := by
  have l201 : Nat.log 2 (Int.toNat 201) = 7 := by
    rw [show Int.toNat 201 = 201 from rfl]
    apply Nat.log_eq_of_pow_le_of_lt_pow <;> norm_num
  have l200 : Nat.log 2 200 = 7 := by
    apply Nat.log_eq_of_pow_le_of_lt_pow <;> norm_num
  have lA : Nat.log 2 (Int.toNat 1131529406376837) = 50 := by
    rw [show Int.toNat 1131529406376837 = 1131529406376837 from rfl]
    apply Nat.log_eq_of_pow_le_of_lt_pow <;> norm_num
  have lB : Nat.log 2 1125899906842624 = 50 := by
    apply Nat.log_eq_of_pow_le_of_lt_pow <;> norm_num
  have lC : Nat.log 2 (Int.toNat 28288235159420925) = 54 := by
    rw [show Int.toNat 28288235159420925 = 28288235159420925 from rfl]
    apply Nat.log_eq_of_pow_le_of_lt_pow <;> norm_num
  have lD : Nat.log 2 281474976710656 = 48 := by
    apply Nat.log_eq_of_pow_le_of_lt_pow <;> norm_num
  have lone : Nat.log 2 (Int.toNat 1) = 0 := by
    rw [show Int.toNat 1 = 1 from rfl]
    exact Nat.log_one_right 2
  refine ⟨?_, by norm_num [round2, itemsTotal], by norm_num⟩
  have e1 : jsLit 1 = 1 := by
    norm_num [jsLit, roundB64, roundB64Pos, qLog2, lone]
  have e2 : jsLit (1005/1000) = 1131529406376837/1125899906842624 := by
    norm_num [jsLit, roundB64, roundB64Pos, qLog2, l201, l200]
  have e3 : jsMul 1 (1131529406376837/1125899906842624) =
      1131529406376837/1125899906842624 := by
    norm_num [jsMul, roundB64, roundB64Pos, qLog2, lA, lB]
  have e4 : jsAdd 0 (1131529406376837/1125899906842624) =
      1131529406376837/1125899906842624 := by
    norm_num [jsAdd, roundB64, roundB64Pos, qLog2, lA, lB]
  have e5 : jsMul (1131529406376837/1125899906842624) 100 =
      7072058789855231/70368744177664 := by
    norm_num [jsMul, roundB64, roundB64Pos, qLog2, lC, lD]
  have e6 : jsMathRound (7072058789855231/70368744177664) = 100 := by
    norm_num [jsMathRound]
  have e7 : jsDiv 100 100 = 1 := by
    norm_num [jsDiv, roundB64, roundB64Pos, qLog2, lone]
  show jsDiv (jsMathRound (jsMul
    ([((1:ℚ), (1005/1000:ℚ))].foldl
      (fun s qp => jsAdd s (jsMul (jsLit qp.1) (jsLit qp.2))) 0) 100)) 100 = 1
  rw [List.foldl_cons, List.foldl_nil]
  rw [show (((1:ℚ), (1005/1000:ℚ)).1) = (1:ℚ) from rfl,
      show (((1:ℚ), (1005/1000:ℚ)).2) = (1005/1000:ℚ) from rfl]
  rw [e1, e2, e3, e4, e5, e6, e7]

/-- **C8 (amended).**  The total of every order created by the mobile create
equals `Math.round((Σ quantity·price) * 100) / 100`; in the exact-arithmetic
reading this is half-up rounding of the sum to the cent (`round2`), but the
source evaluates it in binary64 floating point, which departs from decimal
half-up rounding near half-cent boundaries — see the counterexample. -/
theorem C8_total_rounding (db : DB) (oid cid : String) (items : List ReqItem)
    (st? : Option OrderStatus) (n? : Option String) (ord : Order)
    (hok : (mobileOrdersPost db oid cid items st? n?).1 = .ok ord) :
    ord.total = round2 (itemsTotal items) := by
  by_cases h1 : validItems items
  · cases hc : findCustomer db cid with
    | none => simp [mobileOrdersPost, h1, hc] at hok
    | some c =>
      cases hk : checkItems db items with
      | none =>
        have hord : ord = (createOrderWrites db oid cid items
            (st?.getD .EN_COURS)
            (n?.bind (fun s => if s = "" then none else some s))).2 := by
          have h := hok
          simp [mobileOrdersPost, h1, hc, hk] at h
          exact h.symm
        rw [hord, createOrderWrites_snd]
      | some e => simp [mobileOrdersPost, h1, hc, hk] at hok
  · simp [mobileOrdersPost, h1] at hok

/-- Witness for C8 on the fresh catalog. -/
theorem C8_total_rounding_witness :
    ({ id := "o1", customerId := "C", status := .EN_COURS, total := 20,
       notes := none } : Order).total =
      round2 (itemsTotal [⟨"A", 2, 10⟩]) :=
  C8_total_rounding db0 "o1" "C" [⟨"A", 2, 10⟩] none none
    { id := "o1", customerId := "C", status := .EN_COURS, total := 20,
      notes := none }
    (by
      norm_num [db0, customerC, mobileOrdersPost, validItems, findCustomer,
        checkItems, findProduct, createOrderWrites, itemsTotal, round2,
        updStock, List.foldl, List.all, List.find?]
      decide)

end KerPesked
